import Mathlib

/-!
Verification of the odir content-addressed download core.

This file shallowly embeds the parts of the odir Rust sources that the
specification talks about:

* `src/downloader/utils.rs` — `download_model_blob`, `save_blob`,
  `save_manifest`, `cleanup_unnecessary_files`;
* `src/downloader/ollama_downloader.rs` — the private blob fetcher and the
  `download_model` session of `OllamaModelDownloader` (the HuggingFace
  downloader in `hf_downloader.rs` duplicates the same code line for line);
* `src/signal_handler.rs` — the confirmation protocol of the cancellation
  coordinator.

Modelling conventions:

* Bytes are `Nat` below 256; file contents are byte lists.
* The filesystem is an association list of file paths to contents plus a
  list of directory paths.  Paths are component lists.
* Machine integers of the SHA-256 computation are `Nat` reduced `% 2^32`.
* A Rust `Result` is `Except`; a Rust panic is modelled by `Option.none`
  wrapped around the result.
* Filesystem-mutating operations return the new filesystem, the new
  rollback set, and a trace of observable events, so that ordering claims
  (commit before manifest write, record before write, rollback versus
  clear) can be stated about the trace.
* The asynchronous signal-listener thread is modelled by per-checkpoint
  observations of the shared atomic flags (`SigObs`): `interrupted k` is
  the value of `INTERRUPTED` the workflow reads at its `k`-th checkpoint.
* Ownership reconciliation (`chown`), progress bars and logging are
  metadata/display effects with no bearing on any claim and are omitted
  from the filesystem state.
-/

/-! ## Bytes, paths and SHA-256 (the `sha2` crate's `Sha256`) -/

abbrev Bytes := List Nat

abbrev FsPath := List String

/-- Reduce to a 32-bit word, as the Rust `u32` arithmetic of SHA-256 does. -/
def w32 (x : Nat) : Nat := x % 4294967296

/-- Rotate a 32-bit word right by `n` bits. -/
def rotr32 (n x : Nat) : Nat := w32 ((x >>> n) + ((x % 2 ^ n) <<< (32 - n)))

/-- SHA-256 round constants (FIPS 180-4). -/
def shaK : List Nat :=
  [1116352408, 1899447441, 3049323471, 3921009573, 961987163,
   1508970993, 2453635748, 2870763221, 3624381080, 310598401,
   607225278, 1426881987, 1925078388, 2162078206, 2614888103,
   3248222580, 3835390401, 4022224774, 264347078, 604807628,
   770255983, 1249150122, 1555081692, 1996064986, 2554220882,
   2821834349, 2952996808, 3210313671, 3336571891, 3584528711,
   113926993, 338241895, 666307205, 773529912, 1294757372,
   1396182291, 1695183700, 1986661051, 2177026350, 2456956037,
   2730485921, 2820302411, 3259730800, 3345764771, 3516065817,
   3600352804, 4094571909, 275423344, 430227734, 506948616,
   659060556, 883997877, 958139571, 1322822218, 1537002063,
   1747873779, 1955562222, 2024104815, 2227730452, 2361852424,
   2428436474, 2756734187, 3204031479, 3329325298]

/-- SHA-256 initial hash state (FIPS 180-4). -/
def shaH0 : List Nat :=
  [1779033703, 3144134277, 1013904242, 2773480762,
   1359893119, 2600822924, 528734635, 1541459225]

def shaCh (x y z : Nat) : Nat := (x &&& y) ^^^ ((x ^^^ 0xffffffff) &&& z)

def shaMaj (x y z : Nat) : Nat := (x &&& y) ^^^ (x &&& z) ^^^ (y &&& z)

def shaBigSigma0 (x : Nat) : Nat := rotr32 2 x ^^^ rotr32 13 x ^^^ rotr32 22 x

def shaBigSigma1 (x : Nat) : Nat := rotr32 6 x ^^^ rotr32 11 x ^^^ rotr32 25 x

def shaSmallSigma0 (x : Nat) : Nat := rotr32 7 x ^^^ rotr32 18 x ^^^ (x >>> 3)

def shaSmallSigma1 (x : Nat) : Nat := rotr32 17 x ^^^ rotr32 19 x ^^^ (x >>> 10)

/-- Accumulating splitter: `acc` is the current piece reversed, `cap` how
many elements still fit into it.  Structural recursion on the list keeps
the function kernel-reducible. -/
def chunksAux (size : Nat) : List α → List α → Nat → List (List α)
  | [], acc, _ => if acc.isEmpty then [] else [acc.reverse]
  | a :: rest, acc, cap =>
    match cap with
    | 0 => acc.reverse :: chunksAux size rest [a] (size - 1)
    | c + 1 => chunksAux size rest (a :: acc) c

/-- Split a list into consecutive pieces of `size` elements each (the last
piece may be shorter), as Rust's `slice::chunks(size)` does. -/
def chunksExact (size : Nat) (l : List α) : List (List α) :=
  chunksAux size l [] size

/-- Big-endian 8-byte encoding of a (bit-length) counter. -/
def be64 (x : Nat) : Bytes :=
  [x >>> 56 % 256, x >>> 48 % 256, x >>> 40 % 256, x >>> 32 % 256,
   x >>> 24 % 256, x >>> 16 % 256, x >>> 8 % 256, x % 256]

/-- SHA-256 message padding: append `0x80`, zeros to 56 mod 64, then the
bit length as a big-endian 64-bit integer. -/
def shaPad (msg : Bytes) : Bytes :=
  let zeros := (64 + 56 - (msg.length + 1) % 64) % 64
  msg ++ [0x80] ++ List.replicate zeros 0 ++ be64 (msg.length * 8)

/-- Combine 4 bytes into one big-endian 32-bit word. -/
def word32OfBytes : Bytes → Nat
  | [a, b, c, d] => ((a <<< 24) + (b <<< 16) + (c <<< 8) + d)
  | _ => 0

/-- Extend a 16-word block to the 64-word message schedule. -/
def shaExtend : Nat → List Nat → List Nat
  | 0, w => w
  | n + 1, w =>
      let t := w.length
      let x := w32 (shaSmallSigma1 (w.getD (t - 2) 0) + w.getD (t - 7) 0 +
        shaSmallSigma0 (w.getD (t - 15) 0) + w.getD (t - 16) 0)
      shaExtend n (w ++ [x])

/-- One round of the SHA-256 compression function; the state is the
`(a, b, c, d, e, f, g, h)` tuple as a list of 8 words. -/
def shaRound (st : List Nat) (kw : Nat × Nat) : List Nat :=
  match st with
  | [a, b, c, d, e, f, g, h] =>
      let t1 := w32 (h + shaBigSigma1 e + shaCh e f g + kw.1 + kw.2)
      let t2 := w32 (shaBigSigma0 a + shaMaj a b c)
      [w32 (t1 + t2), a, b, c, w32 (d + t1), e, f, g]
  | other => other

/-- Compress one 16-word block into the running 8-word hash state. -/
def shaCompress (h : List Nat) (block : List Nat) : List Nat :=
  let w := shaExtend 48 block
  let st := (shaK.zip w).foldl shaRound h
  (h.zip st).map fun p => w32 (p.1 + p.2)

/-- Full SHA-256 over a byte list, producing the 8 words of the digest. -/
def sha256Words (msg : Bytes) : List Nat :=
  let words := (chunksExact 4 (shaPad msg)).map word32OfBytes
  (chunksExact 16 words).foldl shaCompress shaH0

def hexDigit (n : Nat) : Char :=
  if n < 10 then Char.ofNat (48 + n) else Char.ofNat (87 + n)

/-- Lowercase hexadecimal rendering of one 32-bit word. -/
def hexWord32 (x : Nat) : List Char :=
  [hexDigit (x >>> 28 % 16), hexDigit (x >>> 24 % 16), hexDigit (x >>> 20 % 16),
   hexDigit (x >>> 16 % 16), hexDigit (x >>> 12 % 16), hexDigit (x >>> 8 % 16),
   hexDigit (x >>> 4 % 16), hexDigit (x % 16)]

/-- The lowercase hex digest string, as Rust's `format "{:x}"` of a
finalized `Sha256` produces it. -/
def sha256hex (msg : Bytes) : String :=
  String.mk ((sha256Words msg).map hexWord32).flatten

/-- Incremental hasher context of the `sha2` crate: `update` folds bytes
in, `finalize` hashes the accumulated stream.  The contents accumulated by
successive `update` calls determine the digest, which is what the claims
depend on; the block-wise incrementality of the crate is not re-modelled. -/
abbrev Sha256Ctx := Bytes

def shaCtxInit : Sha256Ctx := []

def shaUpdate (ctx : Sha256Ctx) (chunk : Bytes) : Sha256Ctx := ctx ++ chunk

def shaFinalizeHex (ctx : Sha256Ctx) : String := sha256hex ctx

/-! ## Filesystem and rollback-set model -/

/-- Whether `q` lies strictly under the directory `p`. -/
def underDir (p q : FsPath) : Bool := p.isPrefixOf q && p != q

/-- A filesystem: files (path and content) plus directories.  `std::fs`
calls of the source are modelled on this state. -/
structure Fs where
  files : List (FsPath × Bytes)
  dirs : List FsPath
deriving DecidableEq

def Fs.isFile (fs : Fs) (p : FsPath) : Bool := fs.files.any fun e => e.1 == p

def Fs.isDir (fs : Fs) (p : FsPath) : Bool := fs.dirs.any fun d => d == p

def Fs.content (fs : Fs) (p : FsPath) : Option Bytes :=
  (fs.files.find? fun e => e.1 == p).map Prod.snd

/-- `fs::remove_file`: drop the file entry. -/
def Fs.removeFile (fs : Fs) (p : FsPath) : Fs :=
  ⟨fs.files.filter fun e => e.1 != p, fs.dirs⟩

/-- A directory is empty when nothing on the filesystem lies under it. -/
def Fs.dirIsEmpty (fs : Fs) (p : FsPath) : Bool :=
  !(fs.files.any fun e => underDir p e.1) && !(fs.dirs.any fun d => underDir p d)

/-- `fs::remove_dir`: succeeds only on an existing empty directory. -/
def Fs.removeDir (fs : Fs) (p : FsPath) : Option Fs :=
  if fs.isDir p && fs.dirIsEmpty p then some ⟨fs.files, fs.dirs.filter fun d => d != p⟩
  else none

/-- `fs::write` and the file-creating side of `tempfile`: create or
truncate the file at `p` with content `data`. -/
def Fs.writeFile (fs : Fs) (p : FsPath) (data : Bytes) : Fs :=
  ⟨(p, data) :: (fs.files.filter fun e => e.1 != p), fs.dirs⟩

/-- A `Write::write_all` on an already created file appends to it. -/
def Fs.appendFile (fs : Fs) (p : FsPath) (chunk : Bytes) : Fs :=
  fs.writeFile p ((fs.content p).getD [] ++ chunk)

/-- `fs::copy`: read the source content and write it to the target. -/
def Fs.copyFile (fs : Fs) (src dst : FsPath) : Option Fs :=
  (fs.content src).map fun data => fs.writeFile dst data

/-- The proper non-empty ancestors of a path, shortest first, the path
itself last. -/
def pathChain (p : FsPath) : List FsPath :=
  (List.range p.length).map fun i => p.take (i + 1)

/-- `fs::create_dir_all`: create the directory and every missing
ancestor. -/
def Fs.createDirAll (fs : Fs) (p : FsPath) : Fs :=
  ⟨fs.files, fs.dirs ++ (pathChain p).filter (fun d => !fs.isDir d)⟩

/-- Directories that a `create_dir_all` call on `p` brings into being. -/
def Fs.createdDirs (fs : Fs) (p : FsPath) : List FsPath :=
  (pathChain p).filter fun d => !fs.isDir d

/-- The `unnecessary_files` rollback set.  The Rust `HashSet` iterates in
an unspecified order; the model fixes insertion order, which is one of the
orders the `HashSet` may present. -/
abbrev RollbackSet := List FsPath

def insertPath (s : RollbackSet) (p : FsPath) : RollbackSet :=
  if p ∈ s then s else s ++ [p]

def removePath (s : RollbackSet) (p : FsPath) : RollbackSet :=
  s.filter fun q => q != p

/-- Events a session step can emit, used to state ordering claims. -/
inductive Ev
  | recordPath (p : FsPath)
  | writeBytes (p : FsPath) (chunk : Bytes)
  | httpGet (ok : Bool)
  | mkdir (p : FsPath)
  | commitBlob (digest : String)
  | writeManifestFile (p : FsPath)
  | rollbackLedger
  | clearLedger
deriving DecidableEq

/-- Errors of `DownloaderError` that the modelled paths produce.  The
source wraps cancellation and digest mismatches in
`DownloaderError::Other(..)` with distinguishing messages; the model keeps
them apart as constructors. -/
inductive DlError
  | httpError
  | userCancelled
  | digestMismatch (named : String)
  | ioError
  | otherError (msg : String)
deriving DecidableEq

/-! ## Rollback ledger: `cleanup_unnecessary_files` (`utils.rs:361`) -/

/-- One pass over the snapshot `todo` of the set: files are removed;
directories are removed only if empty; paths successfully removed leave
the set, failed or absent paths stay. -/
def cleanupGo (fs : Fs) (todo : List FsPath) (s : RollbackSet) : Fs × RollbackSet :=
  match todo with
  | [] => (fs, s)
  | p :: rest =>
    if fs.isFile p then cleanupGo (fs.removeFile p) rest (removePath s p)
    else if fs.isDir p then
      match fs.removeDir p with
      | some fs1 => cleanupGo fs1 rest (removePath s p)
      | none => cleanupGo fs rest s
    else cleanupGo fs rest s

/-- `cleanup_unnecessary_files`: iterate over a snapshot of the set. -/
def cleanup_unnecessary_files (fs : Fs) (s : RollbackSet) : Fs × RollbackSet :=
  cleanupGo fs s s

/-! ## Cancellation coordinator (`signal_handler.rs`) -/

/-- Per-checkpoint observations of the process-wide atomic flags.  The
listener thread mutates `INTERRUPTED` and `INTERRUPT_REQUESTED`
asynchronously; `interrupted k` is the value `is_interrupted()` returns at
the workflow's `k`-th checkpoint, and `confirmExit k` the value
`interrupt_requested() && confirm_pending_interrupt()` resolves to there
(false whenever no interrupt is pending). -/
structure SigObs where
  interrupted : Nat → Bool
  confirmExit : Nat → Bool

/-- Shared signal-handler state: the atomic statics of
`signal_handler.rs`.  `pendingSignal` is 0 when none is pending. -/
structure SigState where
  interrupted : Bool
  interruptRequested : Bool
  pendingSignal : Nat
  confirmationRequired : Bool
  progressActive : Bool
  cleanupDone : Bool
deriving DecidableEq

/-- What the confirmation prompt can observe on standard input: a line
arriving before the timeout, the 10-second timeout elapsing, or a poll
failure. -/
inductive PromptInput
  | line (s : String)
  | timeoutExpired
  | pollFailed
deriving DecidableEq

/-- The bounded wait of the confirmation prompt, in milliseconds
(`signal_handler.rs:100`). -/
def prompt_timeout_ms : Nat := 10000

/-- The poll interval and bound of `wait_for_cleanup_completion`
(`signal_handler.rs:145`). -/
def cleanup_timeout_ms : Nat := 1000

/-- `prompt_for_interrupt_confirmation`: yes only when a line arrives in
time and is `y`/`yes` case-insensitively; timeout and poll failure are no. -/
def prompt_for_interrupt_confirmation (input : PromptInput) : Bool :=
  match input with
  | .line s =>
    let response := s.trim.toLower
    response == "y" || response == "yes"
  | .timeoutExpired => false
  | .pollFailed => false

/-- `confirm_pending_interrupt` (`signal_handler.rs:58`): consult the
flags, consume the pending request and signal, prompt, and set
`INTERRUPTED` only on a confirmed yes. -/
def confirm_pending_interrupt (st : SigState) (input : PromptInput) : Bool × SigState :=
  if !st.confirmationRequired then (false, st)
  else if !st.interruptRequested then (false, st)
  else
    let st1 := { st with interruptRequested := false, pendingSignal := 0 }
    if prompt_for_interrupt_confirmation input then (true, { st1 with interrupted := true })
    else (false, st1)

/-! ## Blob fetchers -/

/-- The streaming loop of `utils::download_model_blob`
(`utils.rs:222-252`): at the top of each iteration it checks
`is_interrupted` and then the pending-confirmation path; only then does it
read the next chunk, feed the hasher and append to the temp file.  `k`
numbers the checkpoints. -/
def fetchLoop (obs : SigObs) (temp : FsPath) :
    List Bytes → Nat → Sha256Ctx → Fs → (Fs × List Ev) × Except DlError Sha256Ctx
  | [], k, ctx, fs =>
    if obs.interrupted k then ((fs, []), .error .userCancelled)
    else if obs.confirmExit k then ((fs, []), .error .userCancelled)
    else ((fs, []), .ok ctx)
  | c :: rest, k, ctx, fs =>
    if obs.interrupted k then ((fs, []), .error .userCancelled)
    else if obs.confirmExit k then ((fs, []), .error .userCancelled)
    else
      match fetchLoop obs temp rest (k + 1) (shaUpdate ctx c) (fs.appendFile temp c) with
      | ((fs2, evs), r) => ((fs2, Ev.writeBytes temp c :: evs), r)

/-- `utils::download_model_blob` (`utils.rs:163-267`): checks interruption
before starting, creates the temp file, records it in the rollback set
before any byte is written, performs the HTTP GET, then streams chunks
through `fetchLoop`.  `body` is the list of successive non-empty `read`
results of the response stream, each at most 8192 bytes in the source; the
read after the last one returns 0 bytes and ends the loop.  On an error
return the `NamedTempFile` guard drops
and deletes the staged file (its path stays in the set); on success
`keep()` persists it. -/
def download_model_blob (obs : SigObs) (temp : FsPath) (httpOk : Bool) (body : List Bytes)
    (fs : Fs) (s : RollbackSet) : (Fs × RollbackSet × List Ev) × Except DlError (FsPath × String) :=
  if obs.interrupted 0 then ((fs, s, []), .error .userCancelled)
  else if obs.confirmExit 0 then ((fs, s, []), .error .userCancelled)
  else
    let fs1 := fs.writeFile temp []
    let s1 := insertPath s temp
    if !httpOk then
      ((fs1.removeFile temp, s1, [Ev.recordPath temp, Ev.httpGet false]), .error .httpError)
    else
      match fetchLoop obs temp body 1 shaCtxInit fs1 with
      | ((fs2, evs), .error e) =>
        ((fs2.removeFile temp, s1, [Ev.recordPath temp, Ev.httpGet true] ++ evs), .error e)
      | ((fs2, evs), .ok ctx) =>
        ((fs2, s1, [Ev.recordPath temp, Ev.httpGet true] ++ evs), .ok (temp, shaFinalizeHex ctx))

/-- Write a list of chunks one `write_all` at a time. -/
def writeChunks (fs : Fs) (p : FsPath) : List Bytes → Fs
  | [] => fs
  | c :: rest => writeChunks (fs.appendFile p c) p rest

/-- The private blob fetcher of `OllamaModelDownloader`
(`ollama_downloader.rs:88-146`; `hf_downloader.rs:100-157` is identical):
creates and records the temp file, performs the GET, then obtains the
whole body at once with `response.bytes()` and writes it out in 8192-byte
chunks while hashing.  It never consults the signal handler, which is why
it takes the observations `_obs` without reading them. -/
def ollama_download_model_blob (_obs : SigObs) (temp : FsPath) (resp : Option Bytes)
    (fs : Fs) (s : RollbackSet) : (Fs × RollbackSet × List Ev) × Except DlError (FsPath × String) :=
  match resp with
  | none =>
    (((fs.writeFile temp []).removeFile temp, insertPath s temp,
      [Ev.recordPath temp, Ev.httpGet false]), .error .httpError)
  | some body =>
    ((writeChunks (fs.writeFile temp []) temp (chunksExact 8192 body), insertPath s temp,
      [Ev.recordPath temp, Ev.httpGet true] ++ (chunksExact 8192 body).map (Ev.writeBytes temp)),
      .ok (temp, shaFinalizeHex ((chunksExact 8192 body).foldl shaUpdate shaCtxInit)))

/-! ## Commit engine -/

/-- Replace every colon in a digest with a dash, as
`named_digest.replace(..)` does when forming the store file name. -/
def replaceColonDash (s : String) : String :=
  String.mk (s.data.map fun c => if c == ':' then '-' else c)

/-- `utils::save_blob` (`utils.rs:269-324`); the private `save_blob` of
the Ollama and HuggingFace downloaders is line-identical.  The outer
`Option` is `none` exactly when the Rust code panics: the byte slice
`named_digest[7..]` is out of range for digests shorter than 7 bytes.
Note the slice never checks that the skipped 7 bytes read `sha256:`.
Ownership reconciliation after the copy touches no file content and is
omitted. -/
def save_blob (models_path : FsPath) (fs : Fs) (s : RollbackSet) (source : FsPath)
    (named_digest computed_digest : String) :
    (Fs × RollbackSet × List Ev) × Option (Except DlError FsPath) :=
  if named_digest.length < 7 then ((fs, s, []), none)
  else if computed_digest != named_digest.drop 7 then
    ((fs, s, []), some (.error (.digestMismatch named_digest)))
  else if !(fs.isDir (models_path ++ ["blobs"]) || fs.isFile (models_path ++ ["blobs"])) then
    ((fs, s, []), some (.error (.otherError "blobs directory does not exist")))
  else if !fs.isDir (models_path ++ ["blobs"]) then
    ((fs, s, []), some (.error (.otherError "blobs path is not a directory")))
  else
    match fs.copyFile source (models_path ++ ["blobs", replaceColonDash named_digest]) with
    | none => ((fs, s, []), some (.error .ioError))
    | some fs1 =>
      ((fs1, insertPath (removePath s source) (models_path ++ ["blobs", replaceColonDash named_digest]),
        [Ev.commitBlob named_digest]),
        some (.ok (models_path ++ ["blobs", replaceColonDash named_digest])))

/-- `utils::save_manifest` (`utils.rs:326-359`); the private
`save_manifest` of the downloaders has the same filesystem behaviour.  If
the manifest directory is missing, `create_dir_all` creates it along with
every missing ancestor, but only the full directory itself is inserted
into the rollback set.  `writeOk` injects the possible failure of
`fs::write`; on success the written file is recorded.  The write step is
split into `saveManifestWrite` above. -/
def saveManifestWrite (data : Bytes) (manifests_dir : FsPath) (tag : String) (writeOk : Bool)
    (fs1 : Fs) (s1 : RollbackSet) (tr1 : List Ev) :
    (Fs × RollbackSet × List Ev) × Except DlError FsPath :=
  if !writeOk then ((fs1, s1, tr1), .error .ioError)
  else
    ((fs1.writeFile (manifests_dir ++ [tag]) data, insertPath s1 (manifests_dir ++ [tag]),
      tr1 ++ [Ev.writeManifestFile (manifests_dir ++ [tag]),
        Ev.recordPath (manifests_dir ++ [tag])]),
      .ok (manifests_dir ++ [tag]))

def save_manifest (data : Bytes) (manifests_dir : FsPath) (tag : String) (writeOk : Bool)
    (fs : Fs) (s : RollbackSet) : (Fs × RollbackSet × List Ev) × Except DlError FsPath :=
  if fs.isDir manifests_dir || fs.isFile manifests_dir then
    saveManifestWrite data manifests_dir tag writeOk fs s []
  else
    saveManifestWrite data manifests_dir tag writeOk (fs.createDirAll manifests_dir)
      (insertPath s manifests_dir)
      ((fs.createdDirs manifests_dir).map Ev.mkdir ++ [Ev.recordPath manifests_dir])

/-! ## Manifest data model (`manifest.rs`) -/

/-- `ImageManifestConfig`. -/
structure ImageManifestConfig where
  media_type : String
  size : Nat
  digest : String
deriving DecidableEq

/-- `ImageManifestLayerEntry`. -/
structure ImageManifestLayerEntry where
  media_type : String
  size : Nat
  digest : String
  urls : Option (List String)
deriving DecidableEq

/-- `ImageManifest`. -/
structure ImageManifest where
  schema_version : Nat
  media_type : String
  config : ImageManifestConfig
  layers : Option (List ImageManifestLayerEntry)
deriving DecidableEq

/-- The digests a manifest references, config first, then the layers in
their declared order — the order `download_model` walks them in. -/
def manifestDigests (m : ImageManifest) : List String :=
  m.config.digest :: (m.layers.getD []).map ImageManifestLayerEntry.digest

/-! ## The Ollama download session (`ollama_downloader.rs:289-373`) -/

/-- Environment of one `download_model` run: the network responses, the
temp paths the OS hands out, whether the final `fs::write` of the manifest
succeeds, and the signal-flag observations.  `manifestFetch` is `none` on
an HTTP failure of the manifest GET and otherwise carries the parsed
manifest together with its raw bytes. -/
structure SessionEnv where
  manifestFetch : Option (ImageManifest × Bytes)
  blobResp : String → Option Bytes
  tempPaths : Nat → FsPath
  manifestWriteOk : Bool
  sig : SigObs

/-- Result of a session: success, a surfaced `DownloaderError`, or a
panic. -/
inductive Outcome
  | ok
  | err (e : DlError)
  | crashed
deriving DecidableEq

/-- The download phase of `download_model`: fetch the config blob and the
layer blobs in order, accumulating `files_to_be_copied` triples of staged
path, manifest-declared digest and computed digest.  Any fetch error
propagates immediately via `?` — no cleanup runs here. -/
def downloadPhase (env : SessionEnv) :
    List String → Nat → Fs → RollbackSet →
    (Fs × RollbackSet × List Ev) × Except DlError (List (FsPath × String × String))
  | [], _, fs, s => ((fs, s, []), .ok [])
  | d :: rest, i, fs, s =>
    match ollama_download_model_blob env.sig (env.tempPaths i) (env.blobResp d) fs s with
    | ((fs1, s1, tr1), .error e) => ((fs1, s1, tr1), .error e)
    | ((fs1, s1, tr1), .ok (p, comp)) =>
      match downloadPhase env rest (i + 1) fs1 s1 with
      | ((fs2, s2, tr2), .error e) => ((fs2, s2, tr1 ++ tr2), .error e)
      | ((fs2, s2, tr2), .ok files) => ((fs2, s2, tr1 ++ tr2), .ok ((p, d, comp) :: files))

/-- The save phase of `download_model`
(`ollama_downloader.rs:342-354`): commit each staged blob with
`save_blob`; on success delete the staged source; on any error run
`cleanup_unnecessary_files` unconditionally — the remove-on-error policy
is not consulted here — and return the error. -/
def savePhase (models_path : FsPath) :
    List (FsPath × String × String) → Fs → RollbackSet →
    (Fs × RollbackSet × List Ev) × Option (Except DlError Unit)
  | [], fs, s => ((fs, s, []), some (.ok ()))
  | (source, named, comp) :: rest, fs, s =>
    match save_blob models_path fs s source named comp with
    | ((fs1, s1, tr1), some (.ok _)) =>
      match savePhase models_path rest (fs1.removeFile source) s1 with
      | ((fs3, s3, tr3), r) => ((fs3, s3, tr1 ++ tr3), r)
    | ((fs1, s1, tr1), some (.error e)) =>
      (((cleanup_unnecessary_files fs1 s1).1, (cleanup_unnecessary_files fs1 s1).2,
        tr1 ++ [Ev.rollbackLedger]), some (.error e))
    | ((fs1, s1, tr1), none) => ((fs1, s1, tr1), none)

/-- `OllamaModelDownloader::download_model`
(`ollama_downloader.rs:289-373`): fetch and parse the manifest, download
config and layers in order, commit every blob, write the manifest, clear
the ledger.  A manifest or blob fetch error propagates with no cleanup; a
blob save error cleans up unconditionally inside `savePhase`; a manifest
save error cleans up only under the remove-on-error policy.  The fresh
`self_mut` starts the session with an empty rollback set.  The manifests
directory is `<models>/manifests/<registry-host>/library/<model>` as the
source computes it. -/
def download_model (models_path : FsPath) (registry_host model tag : String)
    (env : SessionEnv) (remove_downloaded_on_error : Bool) (fs : Fs) :
    (Fs × RollbackSet × List Ev) × Outcome :=
  match env.manifestFetch with
  | none => ((fs, [], [Ev.httpGet false]), .err .httpError)
  | some (manifest, raw) =>
    match downloadPhase env (manifestDigests manifest) 0 fs [] with
    | ((fs1, s1, tr1), .error e) => ((fs1, s1, tr1), .err e)
    | ((fs1, s1, tr1), .ok files) =>
      match savePhase models_path files fs1 s1 with
      | ((fs2, s2, tr2), none) => ((fs2, s2, tr1 ++ tr2), .crashed)
      | ((fs2, s2, tr2), some (.error e)) => ((fs2, s2, tr1 ++ tr2), .err e)
      | ((fs2, s2, tr2), some (.ok _)) =>
        match save_manifest raw (models_path ++ ["manifests", registry_host, "library", model])
            tag env.manifestWriteOk fs2 s2 with
        | ((fs3, s3, tr3), .error e) =>
          if remove_downloaded_on_error then
            (((cleanup_unnecessary_files fs3 s3).1, (cleanup_unnecessary_files fs3 s3).2,
              tr1 ++ tr2 ++ tr3 ++ [Ev.rollbackLedger]), .err e)
          else ((fs3, s3, tr1 ++ tr2 ++ tr3), .err e)
        | ((fs3, _, tr3), .ok _) =>
          ((fs3, [], tr1 ++ tr2 ++ tr3 ++ [Ev.clearLedger]), .ok)

/-! ## Trace observers -/

/-- The digests committed in a trace, in order. -/
def commitsOf (tr : List Ev) : List String :=
  tr.filterMap fun e =>
    match e with
    | .commitBlob d => some d
    | _ => none

/-- Whether a trace contains any blob commit. -/
def hasCommit (tr : List Ev) : Bool :=
  tr.any fun e =>
    match e with
    | .commitBlob _ => true
    | _ => false

/-- No blob commit happens after a manifest write anywhere in the trace. -/
def commitsBeforeManifestWrite : List Ev → Bool
  | [] => true
  | .writeManifestFile _ :: rest => !hasCommit rest && commitsBeforeManifestWrite rest
  | _ :: rest => commitsBeforeManifestWrite rest

/-- Scanning left to right, the path `p` is recorded before any bytes are
written to it. -/
def recordedBeforeWrites (p : FsPath) : List Ev → Bool
  | [] => true
  | .writeBytes q _ :: rest => q != p && recordedBeforeWrites p rest
  | .recordPath q :: rest => q == p || recordedBeforeWrites p rest
  | _ :: rest => recordedBeforeWrites p rest

deriving instance DecidableEq for Except

/-! ## Concrete inputs used by witnesses and counterexamples -/

/-- A store root `m` that already has the `blobs` directory. -/
def exFs : Fs := ⟨[], [["m"], ["m", "blobs"]]⟩

def exBytes : Bytes := [97, 98, 99]

def exBytes2 : Bytes := [1, 2, 3]

/-- A well-formed declared digest matching `exBytes`. -/
def exDigest : String := "sha256:" ++ sha256hex exBytes

/-- A well-formed declared digest matching `exBytes2`. -/
def exDigest2 : String := "sha256:" ++ sha256hex exBytes2

/-- Observations of a run in which no signal ever arrives. -/
def exObs : SigObs := ⟨fun _ => false, fun _ => false⟩

/-- Observations of a run in which `INTERRUPTED` is already true before
the transfer starts and stays true. -/
def exObsInterrupted : SigObs := ⟨fun _ => true, fun _ => false⟩

/-- A manifest with one config blob and one layer blob. -/
def exManifest : ImageManifest :=
  ⟨2, "application/vnd.docker.distribution.manifest.v2+json",
   ⟨"application/vnd.docker.container.image.v1+json", 3, exDigest⟩,
   some [⟨"application/vnd.ollama.image.model", 3, exDigest2, none⟩]⟩

/-- A manifest with only the config blob. -/
def exManifestNoLayers : ImageManifest :=
  ⟨2, "application/vnd.docker.distribution.manifest.v2+json",
   ⟨"application/vnd.docker.container.image.v1+json", 3, exDigest⟩, none⟩

/-- The environment of a fully successful session for `exManifest`. -/
def exEnv : SessionEnv :=
  ⟨some (exManifest, [123]),
   fun d => if d == exDigest then some exBytes else if d == exDigest2 then some exBytes2 else none,
   fun i => ["tmp", "t" ++ toString i], true, exObs⟩

/-- Same session but every network response body hashes to the wrong
digest. -/
def exEnvMismatch : SessionEnv :=
  ⟨some (exManifestNoLayers, [123]), fun _ => some exBytes2,
   fun i => ["tmp", "t" ++ toString i], true, exObs⟩

/-- Same session but every blob GET fails. -/
def exEnvHttpFail : SessionEnv :=
  ⟨some (exManifestNoLayers, [123]), fun _ => none,
   fun i => ["tmp", "t" ++ toString i], true, exObs⟩

/-- The successful session with the interrupted flag raised throughout. -/
def exEnvInterrupted : SessionEnv :=
  ⟨some (exManifest, [123]),
   fun d => if d == exDigest then some exBytes else if d == exDigest2 then some exBytes2 else none,
   fun i => ["tmp", "t" ++ toString i], true, exObsInterrupted⟩

/-- A directory containing one file, both recorded in the rollback set in
the order `save_manifest` records them. -/
def exDirFs : Fs := ⟨[(["d", "f"], [])], [["d"]]⟩

def exDirSet : RollbackSet := [["d"], ["d", "f"]]

/-- The manifests directory of the example session. -/
def exManifestsDir : FsPath := ["m", "manifests", "registry.ollama.ai", "library", "llama"]

/-- The staged-then-saved run backing the C1 witness. -/
def exFetch : (Fs × RollbackSet × List Ev) × Except DlError (FsPath × String) :=
  download_model_blob exObs ["tmp", "t0"] true [exBytes] exFs []

/-- The example session, policy disabled. -/
def exRun : (Fs × RollbackSet × List Ev) × Outcome :=
  download_model ["m"] "registry.ollama.ai" "llama" "latest" exEnv false exFs

/-- The example session against `exEnvInterrupted`. -/
def exRunInterrupted : (Fs × RollbackSet × List Ev) × Outcome :=
  download_model ["m"] "registry.ollama.ai" "llama" "latest" exEnvInterrupted false exFs

/-- The example session against `exEnvHttpFail`, policy enabled. -/
def exRunHttpFail : (Fs × RollbackSet × List Ev) × Outcome :=
  download_model ["m"] "registry.ollama.ai" "llama" "latest" exEnvHttpFail true exFs

/-- The example session against `exEnvMismatch`, policy disabled. -/
def exRunMismatch : (Fs × RollbackSet × List Ev) × Outcome :=
  download_model ["m"] "registry.ollama.ai" "llama" "latest" exEnvMismatch false exFs

/-- The save step backing the C1 witness: committing the fetched blob of
`exFetch` under its declared digest. -/
def exSave : (Fs × RollbackSet × List Ev) × Option (Except DlError FsPath) :=
  save_blob ["m"] exFetch.1.1 exFetch.1.2.1 ["tmp", "t0"] exDigest (sha256hex exBytes)

/-- A store with one staged temp file, used by the mismatch witnesses. -/
def exFsTemp : Fs := ⟨[(["tmp", "t0"], exBytes2)], [["m"], ["m", "blobs"]]⟩

/-- A save phase run over one staged blob whose computed digest is wrong. -/
def exSaveMismatch : (Fs × RollbackSet × List Ev) × Option (Except DlError Unit) :=
  savePhase ["m"] [(["tmp", "t0"], exDigest, sha256hex exBytes2)] exFsTemp [["tmp", "t0"]]

/-- A session whose manifest GET fails. -/
def exEnvNoManifest : SessionEnv :=
  ⟨none, fun _ => none, fun i => ["tmp", "t" ++ toString i], true, exObs⟩

/-- The successful one-blob session, except that the final manifest write
fails. -/
def exEnvNoWrite : SessionEnv :=
  ⟨some (exManifestNoLayers, [123]),
   fun d => if d == exDigest then some exBytes else none,
   fun i => ["tmp", "t" ++ toString i], false, exObs⟩

/-- The download phase of `exEnvHttpFail`. -/
def exDPHttpFail :
    (Fs × RollbackSet × List Ev) × Except DlError (List (FsPath × String × String)) :=
  downloadPhase exEnvHttpFail (manifestDigests exManifestNoLayers) 0 exFs []

/-- The download phase of `exEnvNoWrite`. -/
def exDPNoWrite :
    (Fs × RollbackSet × List Ev) × Except DlError (List (FsPath × String × String)) :=
  downloadPhase exEnvNoWrite (manifestDigests exManifestNoLayers) 0 exFs []

/-- The save phase following `exDPNoWrite`. -/
def exSPNoWrite : (Fs × RollbackSet × List Ev) × Option (Except DlError Unit) :=
  savePhase ["m"] [(["tmp", "t0"], exDigest, sha256hex exBytes)] exDPNoWrite.1.1 exDPNoWrite.1.2.1

/-! ## Basic filesystem lemmas -/

theorem isDir_removeFile (fs : Fs) (p q : FsPath) :
    (fs.removeFile p).isDir q = fs.isDir q := rfl

theorem isFile_removeFile_self (fs : Fs) (p : FsPath) :
    (fs.removeFile p).isFile p = false := by
  simp [Fs.removeFile, Fs.isFile, List.any_eq_true]

theorem isFile_removeFile_of_ne (fs : Fs) (p q : FsPath) (h : q ≠ p) :
    (fs.removeFile p).isFile q = fs.isFile q := by
  simp only [Fs.removeFile, Fs.isFile]
  induction fs.files with
  | nil => rfl
  | cons e rest ih =>
    simp only [List.filter_cons]
    by_cases he : e.1 = p
    · simp [he, Ne.symm h, ih]
    · simp [he, ih]

theorem isFile_removeFile_false (fs : Fs) (p q : FsPath) (h : fs.isFile q = false) :
    (fs.removeFile p).isFile q = false := by
  by_cases hq : q = p
  · rw [hq, isFile_removeFile_self]
  · rw [isFile_removeFile_of_ne fs p q hq]; exact h

theorem removeDir_eq_some (fs fs1 : Fs) (p : FsPath) (h : fs.removeDir p = some fs1) :
    fs1.files = fs.files ∧ fs1.dirs = fs.dirs.filter (fun d => d != p) := by
  unfold Fs.removeDir at h
  split at h
  · cases h; exact ⟨rfl, rfl⟩
  · cases h

theorem isFile_of_removeDir (fs fs1 : Fs) (p q : FsPath) (h : fs.removeDir p = some fs1) :
    fs1.isFile q = fs.isFile q := by
  obtain ⟨hf, _⟩ := removeDir_eq_some fs fs1 p h
  simp [Fs.isFile, hf]

theorem isDir_of_removeDir_false (fs fs1 : Fs) (p q : FsPath)
    (h : fs.removeDir p = some fs1) (hq : fs.isDir q = false) : fs1.isDir q = false := by
  obtain ⟨_, hd⟩ := removeDir_eq_some fs fs1 p h
  simp only [Fs.isDir, List.any_eq_false, beq_iff_eq] at hq ⊢
  rw [hd]
  intro d hdm
  exact hq d (List.mem_filter.mp hdm).1

theorem mem_removePath (s : RollbackSet) (p q : FsPath) :
    q ∈ removePath s p ↔ q ∈ s ∧ q ≠ p := by
  simp [removePath]

theorem mem_insertPath_self (s : RollbackSet) (p : FsPath) : p ∈ insertPath s p := by
  unfold insertPath
  split
  · assumption
  · simp

theorem mem_insertPath_of_mem (s : RollbackSet) (p q : FsPath) (h : q ∈ s) :
    q ∈ insertPath s p := by
  unfold insertPath
  split
  · exact h
  · simp [h]

/-! ## Lemmas about `cleanup_unnecessary_files` -/

theorem cleanupGo_isFile_false (todo : List FsPath) (fs : Fs) (s : RollbackSet)
    (p : FsPath) (h : fs.isFile p = false) : (cleanupGo fs todo s).1.isFile p = false := by
  induction todo generalizing fs s with
  | nil => exact h
  | cons q rest ih =>
    unfold cleanupGo
    split
    · exact ih _ _ (isFile_removeFile_false fs q p h)
    · split
      · split
        · next fs1 hrd => exact ih _ _ (by rw [isFile_of_removeDir fs fs1 q p hrd]; exact h)
        · exact ih _ _ h
      · exact ih _ _ h

theorem cleanupGo_isDir_false (todo : List FsPath) (fs : Fs) (s : RollbackSet)
    (p : FsPath) (h : fs.isDir p = false) : (cleanupGo fs todo s).1.isDir p = false := by
  induction todo generalizing fs s with
  | nil => exact h
  | cons q rest ih =>
    unfold cleanupGo
    split
    · exact ih _ _ (by rw [isDir_removeFile]; exact h)
    · split
      · split
        · next fs1 hrd => exact ih _ _ (isDir_of_removeDir_false fs fs1 q p hrd h)
        · exact ih _ _ h
      · exact ih _ _ h

theorem cleanupGo_removes_file (todo : List FsPath) (fs : Fs) (s : RollbackSet)
    (p : FsPath) (hp : p ∈ todo) (hf : fs.isFile p = true) :
    (cleanupGo fs todo s).1.isFile p = false := by
  induction todo generalizing fs s with
  | nil => cases hp
  | cons q rest ih =>
    unfold cleanupGo
    by_cases hqp : q = p
    · subst hqp
      rw [if_pos hf]
      exact cleanupGo_isFile_false rest _ _ q (isFile_removeFile_self fs q)
    · have hp2 : p ∈ rest := by
        cases hp with
        | head => exact absurd rfl hqp
        | tail _ h2 => exact h2
      split
      · exact ih _ _ hp2 (by rw [isFile_removeFile_of_ne fs q p fun h => hqp h.symm]; exact hf)
      · split
        · split
          · next fs1 hrd => exact ih _ _ hp2 (by rw [isFile_of_removeDir fs fs1 q p hrd]; exact hf)
          · exact ih _ _ hp2 hf
        · exact ih _ _ hp2 hf

theorem cleanupGo_noop (todo : List FsPath) (fs : Fs) (s : RollbackSet)
    (h : ∀ q ∈ todo, fs.isFile q = false ∧ fs.isDir q = false) :
    cleanupGo fs todo s = (fs, s) := by
  induction todo with
  | nil => rfl
  | cons q rest ih =>
    obtain ⟨hf, hd⟩ := h q (List.mem_cons_self q rest)
    unfold cleanupGo
    rw [hf]
    simp only [Bool.false_eq_true, if_false]
    rw [hd]
    simp only [Bool.false_eq_true, if_false]
    exact ih fun p hp => h p (List.mem_cons_of_mem q hp)

theorem cleanupGo_good (todo : List FsPath) (fs : Fs) (s : RollbackSet)
    (h1 : ∀ q ∈ todo, fs.isDir q = false)
    (h2 : ∀ q ∈ s, q ∈ todo ∨ (fs.isFile q = false ∧ fs.isDir q = false)) :
    ∀ q ∈ (cleanupGo fs todo s).2,
      (cleanupGo fs todo s).1.isFile q = false ∧ (cleanupGo fs todo s).1.isDir q = false := by
  induction todo generalizing fs s with
  | nil =>
    intro q hq
    rcases h2 q hq with hc | hc
    · cases hc
    · exact hc
  | cons p rest ih =>
    have hdp : fs.isDir p = false := h1 p (List.mem_cons_self p rest)
    unfold cleanupGo
    split
    · next hfp =>
      refine ih (fs.removeFile p) (removePath s p) ?_ ?_
      · intro q hq
        rw [isDir_removeFile]
        exact h1 q (List.mem_cons_of_mem p hq)
      · intro q hq
        obtain ⟨hqs, hqp⟩ := (mem_removePath s p q).mp hq
        rcases h2 q hqs with hc | hc
        · rcases List.mem_cons.mp hc with rfl | hc2
          · exact absurd rfl hqp
          · exact Or.inl hc2
        · exact Or.inr ⟨isFile_removeFile_false fs p q hc.1, by rw [isDir_removeFile]; exact hc.2⟩
    · next hfp =>
      rw [hdp]
      simp only [Bool.false_eq_true, if_false]
      refine ih fs s ?_ ?_
      · intro q hq
        exact h1 q (List.mem_cons_of_mem p hq)
      · intro q hq
        rcases h2 q hq with hc | hc
        · rcases List.mem_cons.mp hc with rfl | hc2
          · exact Or.inr ⟨Bool.eq_false_iff.mpr hfp, hdp⟩
          · exact Or.inl hc2
        · exact Or.inr hc

theorem cleanup_idempotent_of_no_dirs (fs : Fs) (s : RollbackSet)
    (h : ∀ p ∈ s, fs.isDir p = false) :
    cleanup_unnecessary_files (cleanup_unnecessary_files fs s).1
        (cleanup_unnecessary_files fs s).2 =
      cleanup_unnecessary_files fs s := by
  have hgood := cleanupGo_good s fs s h (fun q hq => Or.inl hq)
  unfold cleanup_unnecessary_files at *
  exact cleanupGo_noop _ _ _ hgood

/-! ## Content and fetch-loop lemmas -/

theorem content_writeFile_self (fs : Fs) (p : FsPath) (d : Bytes) :
    (fs.writeFile p d).content p = some d := by
  simp [Fs.writeFile, Fs.content, List.find?_cons]

theorem content_appendFile_self (fs : Fs) (p : FsPath) (c : Bytes) :
    (fs.appendFile p c).content p = some ((fs.content p).getD [] ++ c) := by
  simp [Fs.appendFile, content_writeFile_self]

theorem fetchLoop_interrupted (obs : SigObs) (temp : FsPath) (chunks : List Bytes)
    (k : Nat) (ctx : Sha256Ctx) (fs : Fs) (h : obs.interrupted k = true) :
    fetchLoop obs temp chunks k ctx fs = ((fs, []), .error .userCancelled) := by
  cases chunks <;> (unfold fetchLoop; rw [h]; simp)

theorem fetchLoop_ok (obs : SigObs) (temp : FsPath) (chunks : List Bytes) :
    ∀ (k : Nat) (ctx : Sha256Ctx) (fs fs2 : Fs) (evs : List Ev) (ctx2 : Sha256Ctx)
      (d : Bytes),
      fetchLoop obs temp chunks k ctx fs = ((fs2, evs), .ok ctx2) →
      fs.content temp = some d →
      ctx2 = ctx ++ chunks.flatten ∧ fs2.content temp = some (d ++ chunks.flatten) ∧
        (∀ j, k ≤ j → j ≤ k + chunks.length → obs.interrupted j = false) := by
  induction chunks with
  | nil =>
    intro k ctx fs fs2 evs ctx2 d h hc
    unfold fetchLoop at h
    split at h
    · cases h
    · split at h
      · cases h
      · cases h
        refine ⟨by simp, by simpa using hc, ?_⟩
        intro j hj1 hj2
        have : j = k := by simp at hj2; omega
        subst this
        next hik _ => simpa using hik
  | cons c rest ih =>
    intro k ctx fs fs2 evs ctx2 d h hc
    unfold fetchLoop at h
    split at h
    · cases h
    · split at h
      · cases h
      · next hik hcf =>
        split at h
        next hF =>
        cases h
        have hc2 : (fs.appendFile temp c).content temp = some (d ++ c) := by
          rw [content_appendFile_self, hc]
          rfl
        obtain ⟨h1, h2, h3⟩ := ih (k + 1) (shaUpdate ctx c) (fs.appendFile temp c)
          _ _ _ (d ++ c) hF hc2
        refine ⟨by simp [h1, shaUpdate], by simp [h2], ?_⟩
        intro j hj1 hj2
        by_cases hjk : j = k
        · subst hjk; simpa using hik
        · refine h3 j (by omega) ?_
          simp only [List.length_cons] at hj2
          omega

theorem download_model_blob_ok (obs : SigObs) (temp : FsPath) (httpOk : Bool)
    (body : List Bytes) (fs : Fs) (s : RollbackSet) (fs1 : Fs) (s1 : RollbackSet)
    (tr : List Ev) (p : FsPath) (dg : String)
    (h : download_model_blob obs temp httpOk body fs s = ((fs1, s1, tr), .ok (p, dg))) :
    p = temp ∧ dg = sha256hex body.flatten ∧ fs1.content temp = some body.flatten ∧
      (∀ j, j ≤ body.length + 1 → obs.interrupted j = false) := by
  simp only [download_model_blob] at h
  split at h
  · cases h
  · split at h
    · cases h
    · next hi0 hc0 =>
      split at h
      · cases h
      · split at h
        · cases h
        · next fs2 evs ctx hfl =>
          cases h
          have hc : (fs.writeFile temp []).content temp = some [] :=
            content_writeFile_self fs temp []
          obtain ⟨h1, h2, h3⟩ := fetchLoop_ok obs temp body 1 shaCtxInit _ _ _ _ []
            hfl hc
          refine ⟨rfl, by simp [shaFinalizeHex, h1, shaCtxInit], by simpa using h2, ?_⟩
          intro j hj
          by_cases hj0 : j = 0
          · subst hj0; simpa using hi0
          · exact h3 j (by omega) (by omega)

/-! ## Lemmas about `save_blob` and `save_manifest` -/

theorem save_blob_ok (mp : FsPath) (fs : Fs) (s : RollbackSet) (src : FsPath)
    (named comp : String) (fs1 : Fs) (s1 : RollbackSet) (tr : List Ev) (tgt : FsPath)
    (h : save_blob mp fs s src named comp = ((fs1, s1, tr), some (.ok tgt))) :
    comp = named.drop 7 ∧ tgt = mp ++ ["blobs", replaceColonDash named] ∧
      fs1.content tgt = fs.content src ∧ tr = [Ev.commitBlob named] ∧
      s1 = insertPath (removePath s src) tgt ∧ 7 ≤ named.length := by
  unfold save_blob at h
  split at h
  · cases h
  · next hlen7 =>
    split at h
    · cases h
    · next hdg =>
      split at h
      · cases h
      · split at h
        · cases h
        · split at h
          · cases h
          · next data hcp =>
            unfold Fs.copyFile at hcp
            rw [Option.map_eq_some'] at hcp
            obtain ⟨body, hsome, rfl⟩ := hcp
            cases h
            refine ⟨by simpa using hdg, rfl, ?_, rfl, rfl, by omega⟩
            rw [content_writeFile_self, hsome]

theorem save_blob_err (mp : FsPath) (fs : Fs) (s : RollbackSet) (src : FsPath)
    (named comp : String) (fs1 : Fs) (s1 : RollbackSet) (tr : List Ev) (e : DlError)
    (h : save_blob mp fs s src named comp = ((fs1, s1, tr), some (.error e))) :
    fs1 = fs ∧ s1 = s ∧ tr = [] := by
  unfold save_blob at h
  split at h
  · cases h
  · split at h
    · cases h; exact ⟨rfl, rfl, rfl⟩
    · split at h
      · cases h; exact ⟨rfl, rfl, rfl⟩
      · split at h
        · cases h; exact ⟨rfl, rfl, rfl⟩
        · split at h
          · cases h; exact ⟨rfl, rfl, rfl⟩
          · cases h

theorem save_blob_crashed (mp : FsPath) (fs : Fs) (s : RollbackSet) (src : FsPath)
    (named comp : String) (st : Fs × RollbackSet × List Ev)
    (h : save_blob mp fs s src named comp = (st, none)) :
    st = (fs, s, []) ∧ named.length < 7 := by
  unfold save_blob at h
  split at h
  · next hlen => cases h; exact ⟨rfl, hlen⟩
  · split at h
    · cases h
    · split at h
      · cases h
      · split at h
        · cases h
        · split at h
          · cases h
          · cases h

theorem save_blob_mismatch (mp : FsPath) (fs : Fs) (s : RollbackSet) (src : FsPath)
    (named comp : String) (hlen : 7 ≤ named.length) (hne : comp ≠ named.drop 7) :
    save_blob mp fs s src named comp =
      ((fs, s, []), some (.error (.digestMismatch named))) := by
  unfold save_blob
  rw [if_neg (by omega)]
  rw [if_pos (by simpa using hne)]

theorem save_manifest_shape (data : Bytes) (md : FsPath) (tag : String) (wok : Bool)
    (fs : Fs) (s : RollbackSet) :
    (∃ pre : List Ev,
      (∀ e ∈ pre, (∃ p, e = Ev.mkdir p) ∨ (∃ p, e = Ev.recordPath p)) ∧
      ((save_manifest data md tag wok fs s).1.2.2 = pre ∧ wok = false ∨
       (save_manifest data md tag wok fs s).1.2.2 =
         pre ++ [Ev.writeManifestFile (md ++ [tag]), Ev.recordPath (md ++ [tag])] ∧
         wok = true)) := by
  unfold save_manifest saveManifestWrite
  have hpre : ∀ e ∈ (fs.createdDirs md).map Ev.mkdir ++ [Ev.recordPath md],
      (∃ p, e = Ev.mkdir p) ∨ (∃ p, e = Ev.recordPath p) := by
    intro e he
    rcases List.mem_append.mp he with hm | hm
    · exact Or.inl (by obtain ⟨p, _, rfl⟩ := List.mem_map.mp hm; exact ⟨p, rfl⟩)
    · simp at hm; exact Or.inr ⟨md, by simp [hm]⟩
  cases wok with
  | false =>
    split
    · exact ⟨[], by simp, Or.inl ⟨by simp, rfl⟩⟩
    · exact ⟨_, hpre, Or.inl ⟨by simp, rfl⟩⟩
  | true =>
    split
    · exact ⟨[], by simp, Or.inr ⟨by simp, rfl⟩⟩
    · exact ⟨_, hpre, Or.inr ⟨by simp, rfl⟩⟩

/-! ## Chunking and trace-classification lemmas -/

theorem chunksAux_flatten (size : Nat) (l : List α) :
    ∀ (acc : List α) (cap : Nat), (chunksAux size l acc cap).flatten = acc.reverse ++ l := by
  induction l with
  | nil =>
    intro acc cap
    unfold chunksAux
    split
    · next hacc => simp [List.isEmpty_iff.mp hacc]
    · simp
  | cons a rest ih =>
    intro acc cap
    unfold chunksAux
    cases cap with
    | zero => simp [ih]
    | succ c => simp [ih]

theorem chunksExact_flatten (size : Nat) (l : List α) : (chunksExact size l).flatten = l := by
  simpa using chunksAux_flatten size l [] size

theorem foldl_shaUpdate (chunks : List Bytes) :
    ∀ ctx : Sha256Ctx, chunks.foldl shaUpdate ctx = ctx ++ chunks.flatten := by
  induction chunks with
  | nil => intro ctx; simp
  | cons c rest ih => intro ctx; simp [shaUpdate, ih, List.append_assoc]

theorem writeChunks_content (p : FsPath) (chunks : List Bytes) :
    ∀ (fs : Fs) (d : Bytes), fs.content p = some d →
      (writeChunks fs p chunks).content p = some (d ++ chunks.flatten) := by
  induction chunks with
  | nil => intro fs d h; simpa using h
  | cons c rest ih =>
    intro fs d h
    unfold writeChunks
    have := ih (fs.appendFile p c) (d ++ c) (by rw [content_appendFile_self, h]; rfl)
    simpa [List.append_assoc] using this

theorem ollama_fetch_trace (obs : SigObs) (temp : FsPath) (resp : Option Bytes)
    (fs : Fs) (s : RollbackSet) :
    ∀ e ∈ (ollama_download_model_blob obs temp resp fs s).1.2.2,
      (∃ p, e = Ev.recordPath p) ∨ (∃ b, e = Ev.httpGet b) ∨ (∃ p c, e = Ev.writeBytes p c) := by
  intro e he
  cases resp with
  | none =>
    simp only [ollama_download_model_blob, List.mem_cons, List.not_mem_nil, or_false] at he
    rcases he with rfl | rfl
    · exact Or.inl ⟨temp, rfl⟩
    · exact Or.inr (Or.inl ⟨false, rfl⟩)
  | some body =>
    simp only [ollama_download_model_blob, List.cons_append, List.nil_append,
      List.mem_cons, List.mem_append, List.mem_map] at he
    rcases he with rfl | rfl | ⟨c, _, rfl⟩
    · exact Or.inl ⟨temp, rfl⟩
    · exact Or.inr (Or.inl ⟨true, rfl⟩)
    · exact Or.inr (Or.inr ⟨temp, c, rfl⟩)

theorem downloadPhase_trace (env : SessionEnv) (ds : List String) :
    ∀ (i : Nat) (fs : Fs) (s : RollbackSet),
      ∀ e ∈ (downloadPhase env ds i fs s).1.2.2,
        (∃ p, e = Ev.recordPath p) ∨ (∃ b, e = Ev.httpGet b) ∨
          (∃ p c, e = Ev.writeBytes p c) := by
  induction ds with
  | nil => intro i fs s e he; simp [downloadPhase] at he
  | cons d rest ih =>
    intro i fs s e he
    unfold downloadPhase at he
    split at he
    · next hF =>
      have := ollama_fetch_trace env.sig (env.tempPaths i) (env.blobResp d) fs s
      rw [hF] at this
      exact this e he
    · next fs1 s1 tr1 p comp hF =>
      split at he
      all_goals
        next hR =>
        rcases List.mem_append.mp he with hm | hm
        · have := ollama_fetch_trace env.sig (env.tempPaths i) (env.blobResp d) fs s
          rw [hF] at this
          exact this e hm
        · have := ih (i + 1) fs1 s1 e
          rw [hR] at this
          exact this hm

theorem downloadPhase_ok_names (env : SessionEnv) (ds : List String) :
    ∀ (i : Nat) (fs : Fs) (s : RollbackSet) (st : Fs × RollbackSet × List Ev)
      (files : List (FsPath × String × String)),
      downloadPhase env ds i fs s = (st, .ok files) →
      files.map (fun f => f.2.1) = ds := by
  induction ds with
  | nil =>
    intro i fs s st files h
    unfold downloadPhase at h
    cases h
    rfl
  | cons d rest ih =>
    intro i fs s st files h
    unfold downloadPhase at h
    split at h
    · cases h
    · next fs1 s1 tr1 p comp hF =>
      split at h
      · cases h
      · next hR =>
        cases h
        simpa using ih (i + 1) fs1 s1 _ _ hR

theorem savePhase_ok_trace (mp : FsPath) (files : List (FsPath × String × String)) :
    ∀ (fs : Fs) (s : RollbackSet) (st : Fs × RollbackSet × List Ev),
      savePhase mp files fs s = (st, some (.ok ())) →
      st.2.2 = files.map fun f => Ev.commitBlob f.2.1 := by
  induction files with
  | nil =>
    intro fs s st h
    unfold savePhase at h
    cases h
    rfl
  | cons f rest ih =>
    intro fs s st h
    obtain ⟨source, named, comp⟩ := f
    unfold savePhase at h
    split at h
    · next fs1 s1 tr1 tgt hSB =>
      split at h
      next fs3 s3 tr3 r hR =>
      cases h
      obtain ⟨_, _, _, htr, _, _⟩ := save_blob_ok mp fs s source named comp fs1 s1 tr1 tgt hSB
      have h3 := ih (fs1.removeFile source) s1 _ hR
      simp only [] at h3
      simp [htr, h3]
    · simp at h
    · simp at h

theorem savePhase_err_trace (mp : FsPath) (files : List (FsPath × String × String)) :
    ∀ (fs : Fs) (s : RollbackSet) (st : Fs × RollbackSet × List Ev) (e : DlError),
      savePhase mp files fs s = (st, some (.error e)) →
      ∃ ds : List String, st.2.2 = ds.map Ev.commitBlob ++ [Ev.rollbackLedger] := by
  induction files with
  | nil =>
    intro fs s st e h
    unfold savePhase at h
    simp at h
  | cons f rest ih =>
    intro fs s st e h
    obtain ⟨source, named, comp⟩ := f
    unfold savePhase at h
    split at h
    · next fs1 s1 tr1 tgt hSB =>
      split at h
      next fs3 s3 tr3 r hR =>
      cases h
      obtain ⟨_, _, _, htr, _, _⟩ := save_blob_ok mp fs s source named comp fs1 s1 tr1 tgt hSB
      obtain ⟨ds, hds⟩ := ih (fs1.removeFile source) s1 _ e hR
      simp only [] at hds
      exact ⟨named :: ds, by simp [htr, hds]⟩
    · next fs1 s1 tr1 e2 hSB =>
      cases h
      obtain ⟨_, _, htr⟩ := save_blob_err mp fs s source named comp _ _ _ _ hSB
      exact ⟨[], by simp [htr]⟩
    · simp at h

theorem savePhase_crashed_trace (mp : FsPath) (files : List (FsPath × String × String)) :
    ∀ (fs : Fs) (s : RollbackSet) (st : Fs × RollbackSet × List Ev),
      savePhase mp files fs s = (st, none) →
      ∃ ds : List String, st.2.2 = ds.map Ev.commitBlob := by
  induction files with
  | nil =>
    intro fs s st h
    unfold savePhase at h
    simp at h
  | cons f rest ih =>
    intro fs s st h
    obtain ⟨source, named, comp⟩ := f
    unfold savePhase at h
    split at h
    · next fs1 s1 tr1 tgt hSB =>
      split at h
      next fs3 s3 tr3 r hR =>
      cases h
      obtain ⟨_, _, _, htr, _, _⟩ := save_blob_ok mp fs s source named comp fs1 s1 tr1 tgt hSB
      obtain ⟨ds, hds⟩ := ih (fs1.removeFile source) s1 _ hR
      simp only [] at hds
      exact ⟨named :: ds, by simp [htr, hds]⟩
    · simp at h
    · next st2 hSB =>
      cases h
      obtain ⟨hst, _⟩ := save_blob_crashed mp fs s source named comp _ hSB
      simp only [Prod.mk.injEq] at hst
      exact ⟨[], by simp [hst.2.2]⟩

/-! ## Trace-predicate helper lemmas -/

theorem hasCommit_append (l1 l2 : List Ev) :
    hasCommit (l1 ++ l2) = (hasCommit l1 || hasCommit l2) := by
  simp [hasCommit]

theorem hasCommit_map_commit_false (l : List Ev)
    (h : ∀ e ∈ l, (∃ p, e = Ev.recordPath p) ∨ (∃ b, e = Ev.httpGet b) ∨
      (∃ p c, e = Ev.writeBytes p c) ∨ (∃ p, e = Ev.mkdir p)) :
    hasCommit l = false := by
  simp only [hasCommit, List.any_eq_false]
  intro e he
  rcases h e he with ⟨p, rfl⟩ | ⟨b, rfl⟩ | ⟨p, c, rfl⟩ | ⟨p, rfl⟩ <;> simp

theorem commitsOf_append (l1 l2 : List Ev) :
    commitsOf (l1 ++ l2) = commitsOf l1 ++ commitsOf l2 := by
  simp [commitsOf]

theorem commitsOf_fetch_nil (l : List Ev)
    (h : ∀ e ∈ l, (∃ p, e = Ev.recordPath p) ∨ (∃ b, e = Ev.httpGet b) ∨
      (∃ p c, e = Ev.writeBytes p c)) :
    commitsOf l = [] := by
  rw [commitsOf, List.filterMap_eq_nil_iff]
  intro e he
  rcases h e he with ⟨p, rfl⟩ | ⟨b, rfl⟩ | ⟨p, c, rfl⟩ <;> rfl

theorem commitsOf_map_commit (ds : List String) :
    commitsOf (ds.map Ev.commitBlob) = ds := by
  induction ds with
  | nil => rfl
  | cons d rest ih => simp [commitsOf] at ih ⊢; exact ih

theorem commitsOf_commit_map (files : List (FsPath × String × String)) :
    commitsOf (files.map fun f => Ev.commitBlob f.2.1) = files.map fun f => f.2.1 := by
  induction files with
  | nil => rfl
  | cons f rest ih => simp [commitsOf] at ih ⊢; exact ih

theorem commitsBeforeManifestWrite_noWrite (l : List Ev)
    (h : ∀ p, Ev.writeManifestFile p ∉ l) : commitsBeforeManifestWrite l = true := by
  induction l with
  | nil => rfl
  | cons e rest ih =>
    have hrest : ∀ p, Ev.writeManifestFile p ∉ rest := fun p hp =>
      h p (List.mem_cons_of_mem e hp)
    cases e with
    | writeManifestFile p => exact absurd (List.mem_cons_self _ _) (h p)
    | recordPath p => simpa [commitsBeforeManifestWrite] using ih hrest
    | writeBytes p c => simpa [commitsBeforeManifestWrite] using ih hrest
    | httpGet b => simpa [commitsBeforeManifestWrite] using ih hrest
    | mkdir p => simpa [commitsBeforeManifestWrite] using ih hrest
    | commitBlob d => simpa [commitsBeforeManifestWrite] using ih hrest
    | rollbackLedger => simpa [commitsBeforeManifestWrite] using ih hrest
    | clearLedger => simpa [commitsBeforeManifestWrite] using ih hrest

theorem commitsBeforeManifestWrite_append_noWrite (l1 l2 : List Ev)
    (h : ∀ p, Ev.writeManifestFile p ∉ l1) :
    commitsBeforeManifestWrite (l1 ++ l2) = commitsBeforeManifestWrite l2 := by
  induction l1 with
  | nil => rfl
  | cons e rest ih =>
    have hrest : ∀ p, Ev.writeManifestFile p ∉ rest := fun p hp =>
      h p (List.mem_cons_of_mem e hp)
    cases e with
    | writeManifestFile p => exact absurd (List.mem_cons_self _ _) (h p)
    | recordPath p => simpa [commitsBeforeManifestWrite] using ih hrest
    | writeBytes p c => simpa [commitsBeforeManifestWrite] using ih hrest
    | httpGet b => simpa [commitsBeforeManifestWrite] using ih hrest
    | mkdir p => simpa [commitsBeforeManifestWrite] using ih hrest
    | commitBlob d => simpa [commitsBeforeManifestWrite] using ih hrest
    | rollbackLedger => simpa [commitsBeforeManifestWrite] using ih hrest
    | clearLedger => simpa [commitsBeforeManifestWrite] using ih hrest

/-! ## Claim theorems -/

/-- Claim C5 (counterexample): rollback is not idempotent as stated.  With
the directory `d` and the file `d/f` both in the set, in that order (the
order `save_manifest` inserts them in), the first pass fails to remove the
still non-empty `d` but removes `d/f` after it; a second pass then removes
the now empty `d`, so the filesystem differs. -/
theorem rollback_twice_differs_counterexample :
    cleanup_unnecessary_files (cleanup_unnecessary_files exDirFs exDirSet).1
        (cleanup_unnecessary_files exDirFs exDirSet).2 ≠
      cleanup_unnecessary_files exDirFs exDirSet := by decide

/-- Claim C5 (amended): calling `cleanup_unnecessary_files` twice yields the
same filesystem and set as calling it once whenever no recorded path is a
directory — in particular re-removing an already-removed path is a no-op.
(The unrestricted claim fails: a non-empty directory skipped by the first
pass can become removable once a file under it, recorded later in the set,
is deleted by the same pass.) -/
theorem rollback_idempotent_without_directories (fs : Fs) (s : RollbackSet)
    (h : ∀ p ∈ s, fs.isDir p = false) :
    cleanup_unnecessary_files (cleanup_unnecessary_files fs s).1
        (cleanup_unnecessary_files fs s).2 =
      cleanup_unnecessary_files fs s := by
  have hgood := cleanupGo_good s fs s h (fun q hq => Or.inl hq)
  unfold cleanup_unnecessary_files at *
  exact cleanupGo_noop _ _ _ hgood

/-- Witness for the amended C5 theorem at a concrete set holding one file
and one already-absent path. -/
theorem rollback_idempotent_without_directories_witness :
    cleanup_unnecessary_files
        (cleanup_unnecessary_files ⟨[(["a"], [7])], []⟩ [["a"], ["b"]]).1
        (cleanup_unnecessary_files ⟨[(["a"], [7])], []⟩ [["a"], ["b"]]).2 =
      cleanup_unnecessary_files ⟨[(["a"], [7])], []⟩ [["a"], ["b"]] :=
  rollback_idempotent_without_directories ⟨[(["a"], [7])], []⟩ [["a"], ["b"]] (by decide)

/-- Claim C4 (counterexample): `save_manifest` on a store whose `manifests`
tree is missing creates the ancestor directory `m/manifests` (and deeper
ones), but the rollback set it returns does not contain that ancestor —
only the leaf directory and the manifest file are recorded, so the claim
that every created directory including ancestors is recorded is false. -/
theorem save_manifest_untracked_ancestor_counterexample :
    (save_manifest [123] exManifestsDir "latest" true exFs []).1.1.isDir
        ["m", "manifests"] = true ∧
      exFs.isDir ["m", "manifests"] = false ∧
      ["m", "manifests"] ∉ (save_manifest [123] exManifestsDir "latest" true exFs []).1.2.1 := by
  decide

/-- Claim C4 (amended): the temp path is recorded in the rollback set
before any byte is written to it, in both the module-level blob fetcher
and the private one of the Ollama downloader; and `save_manifest` records
the full manifest directory it creates — but not the missing ancestors
that `create_dir_all` also creates. -/
theorem temp_recorded_before_writes_and_leaf_dir_recorded :
    (∀ (obs : SigObs) (temp : FsPath) (httpOk : Bool) (body : List Bytes) (fs : Fs)
      (s : RollbackSet),
      recordedBeforeWrites temp (download_model_blob obs temp httpOk body fs s).1.2.2 = true) ∧
    (∀ (obs : SigObs) (temp : FsPath) (resp : Option Bytes) (fs : Fs) (s : RollbackSet),
      recordedBeforeWrites temp (ollama_download_model_blob obs temp resp fs s).1.2.2 = true) ∧
    (∀ (data : Bytes) (md : FsPath) (tag : String) (wok : Bool) (fs : Fs) (s : RollbackSet),
      fs.isDir md = false → fs.isFile md = false →
      md ∈ (save_manifest data md tag wok fs s).1.2.1) := by
  refine ⟨?_, ?_, ?_⟩
  · intro obs temp httpOk body fs s
    simp only [download_model_blob]
    split
    · rfl
    · split
      · rfl
      · split
        · simp [recordedBeforeWrites]
        · split <;> simp [recordedBeforeWrites]
  · intro obs temp resp fs s
    cases resp <;> simp [ollama_download_model_blob, recordedBeforeWrites]
  · intro data md tag wok fs s hd hf
    unfold save_manifest
    rw [hd, hf]
    simp only [Bool.or_self, Bool.false_eq_true, if_false]
    unfold saveManifestWrite
    split
    · exact mem_insertPath_self s md
    · exact mem_insertPath_of_mem _ _ _ (mem_insertPath_self s md)

/-- Witness for the amended C4 theorem at the example store and fetches. -/
theorem temp_recorded_before_writes_witness :
    recordedBeforeWrites ["tmp", "t0"]
        (download_model_blob exObs ["tmp", "t0"] true [exBytes] exFs []).1.2.2 = true ∧
      recordedBeforeWrites ["tmp", "t0"]
        (ollama_download_model_blob exObs ["tmp", "t0"] (some exBytes) exFs []).1.2.2 = true ∧
      exManifestsDir ∈ (save_manifest [123] exManifestsDir "latest" true exFs []).1.2.1 :=
  ⟨temp_recorded_before_writes_and_leaf_dir_recorded.1 exObs ["tmp", "t0"] true [exBytes] exFs [],
   temp_recorded_before_writes_and_leaf_dir_recorded.2.1 exObs ["tmp", "t0"] (some exBytes) exFs [],
   temp_recorded_before_writes_and_leaf_dir_recorded.2.2 [123] exManifestsDir "latest" true exFs []
     (by decide) (by decide)⟩

/-- Claim C9: with confirmation required and an interrupt pending, a
confirmation prompt that times out resolves to No: the pending request and
signal are cleared, the interrupted flag is left unchanged, and the
configured bounded wait is 10000 milliseconds. -/
theorem interrupt_prompt_timeout_resolves_to_no (st : SigState)
    (hc : st.confirmationRequired = true) (hr : st.interruptRequested = true) :
    confirm_pending_interrupt st .timeoutExpired =
      (false, { st with interruptRequested := false, pendingSignal := 0 }) ∧
    prompt_for_interrupt_confirmation .timeoutExpired = false ∧
    (confirm_pending_interrupt st .timeoutExpired).2.interrupted = st.interrupted ∧
    prompt_timeout_ms = 10000 := by
  simp [confirm_pending_interrupt, prompt_for_interrupt_confirmation, hc, hr, prompt_timeout_ms]

/-- Witness for C9 at a concrete pending-SIGINT state. -/
theorem interrupt_prompt_timeout_resolves_to_no_witness :
    confirm_pending_interrupt ⟨false, true, 2, true, true, false⟩ .timeoutExpired =
      (false, ⟨false, false, 0, true, true, false⟩) ∧
    prompt_for_interrupt_confirmation .timeoutExpired = false ∧
    (confirm_pending_interrupt ⟨false, true, 2, true, true, false⟩ .timeoutExpired).2.interrupted =
      (⟨false, true, 2, true, true, false⟩ : SigState).interrupted ∧
    prompt_timeout_ms = 10000 :=
  interrupt_prompt_timeout_resolves_to_no ⟨false, true, 2, true, true, false⟩ rfl rfl

/-- Claim C10: `save_blob` strips the expected digest by unconditionally
slicing 7 bytes: a declared digest shorter than 7 bytes makes the Rust
code panic (the `none` outcome of the model), and the slice never checks
that the 7 skipped bytes read `sha256:`, so a digest with any 7-byte
prefix whose tail equals the computed digest passes verification. -/
theorem save_blob_digest_slice_panics_and_skips_seven_bytes :
    (∀ (mp : FsPath) (fs : Fs) (s : RollbackSet) (src : FsPath) (named comp : String),
      named.length < 7 → save_blob mp fs s src named comp = ((fs, s, []), none)) ∧
    (∀ (mp : FsPath) (fs : Fs) (s : RollbackSet) (src : FsPath) (named comp : String),
      7 ≤ named.length → comp = named.drop 7 →
      ∀ e, (save_blob mp fs s src named comp).2 ≠ some (.error (.digestMismatch e))) := by
  constructor
  · intro mp fs s src named comp h
    unfold save_blob
    rw [if_pos h]
  · intro mp fs s src named comp hlen hcomp e
    unfold save_blob
    rw [if_neg (by omega), if_neg (by simp [hcomp])]
    split
    · simp
    · split
      · simp
      · split <;> simp

/-- Witness for C10: a 6-byte digest panics; the 8-byte digest `md5:abcd`
with computed digest `d` is accepted for comparison despite its prefix. -/
theorem save_blob_digest_slice_witness :
    save_blob ["m"] exFs [] ["tmp", "t0"] "sha256" "abc" = ((exFs, [], []), none) ∧
    (save_blob ["m"] exFs [] ["tmp", "t0"] "md5:abcd" "d").2 ≠
      some (.error (.digestMismatch "md5:abcd")) :=
  ⟨save_blob_digest_slice_panics_and_skips_seven_bytes.1 ["m"] exFs [] ["tmp", "t0"]
      "sha256" "abc" (by decide),
   save_blob_digest_slice_panics_and_skips_seven_bytes.2 ["m"] exFs [] ["tmp", "t0"]
      "md5:abcd" "d" (by decide) (by decide) "md5:abcd"⟩

theorem fetch_classified_not_mem (l : List Ev)
    (h : ∀ e ∈ l, (∃ p, e = Ev.recordPath p) ∨ (∃ b, e = Ev.httpGet b) ∨
      (∃ p c, e = Ev.writeBytes p c)) :
    Ev.rollbackLedger ∉ l ∧ Ev.clearLedger ∉ l ∧ (∀ p, Ev.writeManifestFile p ∉ l) ∧
      commitsOf l = [] := by
  refine ⟨fun hm => ?_, fun hm => ?_, fun p hm => ?_, commitsOf_fetch_nil l h⟩
  · rcases h _ hm with ⟨p, hp⟩ | ⟨b, hb⟩ | ⟨p, c, hw⟩ <;> simp at *
  · rcases h _ hm with ⟨p, hp⟩ | ⟨b, hb⟩ | ⟨p, c, hw⟩ <;> simp at *
  · rcases h _ hm with ⟨q, hp⟩ | ⟨b, hb⟩ | ⟨q, c, hw⟩ <;> simp at *

theorem creation_classified_not_mem (l : List Ev)
    (h : ∀ e ∈ l, (∃ p, e = Ev.mkdir p) ∨ (∃ p, e = Ev.recordPath p)) :
    Ev.rollbackLedger ∉ l ∧ Ev.clearLedger ∉ l ∧ (∀ p, Ev.writeManifestFile p ∉ l) ∧
      commitsOf l = [] := by
  refine ⟨fun hm => ?_, fun hm => ?_, fun p hm => ?_, ?_⟩
  · rcases h _ hm with ⟨p, hp⟩ | ⟨p, hp⟩ <;> simp at *
  · rcases h _ hm with ⟨p, hp⟩ | ⟨p, hp⟩ <;> simp at *
  · rcases h _ hm with ⟨q, hp⟩ | ⟨q, hp⟩ <;> simp at *
  · rw [commitsOf, List.filterMap_eq_nil_iff]
    intro e he
    rcases h e he with ⟨p, rfl⟩ | ⟨p, rfl⟩ <;> rfl

/-- Claim C1: a blob committed by a successful `save_blob` after a
successful fetch lands at `<store>/blobs/<digest with the colon replaced
by a dash>`, its content is exactly the bytes streamed into the staged
temp file, and the SHA-256 of that content is exactly the digest the
manifest declared (after the 7-byte algorithm prefix).  `hkeep` states
that nothing overwrote the staged file between fetch and commit, which the
sequential session guarantees. -/
theorem committed_blob_content_hashes_to_declared_digest
    (obs : SigObs) (temp : FsPath) (httpOk : Bool) (body : List Bytes)
    (fs0 : Fs) (s0 : RollbackSet) (fs1 : Fs) (s1 : RollbackSet) (tr1 : List Ev)
    (p : FsPath) (dg : String)
    (hdl : download_model_blob obs temp httpOk body fs0 s0 = ((fs1, s1, tr1), .ok (p, dg)))
    (mp : FsPath) (fs2 : Fs) (s2 : RollbackSet) (named : String)
    (fs3 : Fs) (s3 : RollbackSet) (tr3 : List Ev) (tgt : FsPath)
    (hkeep : fs2.content p = fs1.content p)
    (hsv : save_blob mp fs2 s2 p named dg = ((fs3, s3, tr3), some (.ok tgt))) :
    tgt = mp ++ ["blobs", replaceColonDash named] ∧
      fs3.content tgt = some body.flatten ∧
      sha256hex body.flatten = named.drop 7 := by
  obtain ⟨hp, hdg, hcontent, _⟩ :=
    download_model_blob_ok obs temp httpOk body fs0 s0 fs1 s1 tr1 p dg hdl
  subst hp
  obtain ⟨hcomp, htgt, hcopy, _, _, _⟩ :=
    save_blob_ok mp fs2 s2 p named dg fs3 s3 tr3 tgt hsv
  refine ⟨htgt, ?_, by rw [← hdg, hcomp]⟩
  rw [hcopy, hkeep, hcontent]

set_option maxRecDepth 1000000 in
set_option maxHeartbeats 2000000 in
/-- Witness for C1 on the example store: fetching `abc` and committing it
under the digest `sha256:<sha256 of abc>`. -/
theorem committed_blob_content_witness :
    (["m"] ++ ["blobs", replaceColonDash exDigest] : FsPath) =
        ["m"] ++ ["blobs", replaceColonDash exDigest] ∧
      exSave.1.1.content (["m"] ++ ["blobs", replaceColonDash exDigest]) =
        some ([exBytes].flatten) ∧
      sha256hex [exBytes].flatten = exDigest.drop 7 :=
  committed_blob_content_hashes_to_declared_digest exObs ["tmp", "t0"] true [exBytes]
    exFs [] exFetch.1.1 exFetch.1.2.1 exFetch.1.2.2 ["tmp", "t0"] (sha256hex exBytes)
    (by decide) ["m"] exFetch.1.1 exFetch.1.2.1 exDigest
    exSave.1.1 exSave.1.2.1 exSave.1.2.2 (["m"] ++ ["blobs", replaceColonDash exDigest])
    rfl (by decide)

/-- Claim C2: a digest mismatch makes `save_blob` return the mismatch
error with the filesystem and rollback set untouched, so no file appears
at the target path; the save phase of the session reacts to any save error
by running the rollback unconditionally (the phase does not even take the
remove-on-error policy as an input); and the rollback deletes every staged
file still recorded in the set, in particular the staged temp file. -/
theorem digest_mismatch_always_rolls_back :
    (∀ (mp : FsPath) (fs : Fs) (s : RollbackSet) (src : FsPath) (named comp : String),
      7 ≤ named.length → comp ≠ named.drop 7 →
      save_blob mp fs s src named comp =
        ((fs, s, []), some (.error (.digestMismatch named)))) ∧
    (∀ (mp : FsPath) (files : List (FsPath × String × String)) (fs : Fs) (s : RollbackSet)
      (st : Fs × RollbackSet × List Ev) (e : DlError),
      savePhase mp files fs s = (st, some (.error e)) → Ev.rollbackLedger ∈ st.2.2) ∧
    (∀ (fs : Fs) (s : RollbackSet) (p : FsPath), p ∈ s → fs.isFile p = true →
      (cleanup_unnecessary_files fs s).1.isFile p = false) := by
  refine ⟨save_blob_mismatch, ?_, ?_⟩
  · intro mp files fs s st e h
    obtain ⟨ds, hds⟩ := savePhase_err_trace mp files fs s st e h
    rw [hds]
    simp
  · intro fs s p hp hf
    exact cleanupGo_removes_file s fs s p hp hf

set_option maxRecDepth 1000000 in
set_option maxHeartbeats 2000000 in
/-- Witness for C2: the mismatch error itself, a one-blob save phase whose
mismatch triggers the rollback event, and the rollback removing the staged
file. -/
theorem digest_mismatch_always_rolls_back_witness :
    save_blob ["m"] exFsTemp [["tmp", "t0"]] ["tmp", "t0"] exDigest (sha256hex exBytes2) =
      ((exFsTemp, [["tmp", "t0"]], []), some (.error (.digestMismatch exDigest))) ∧
    Ev.rollbackLedger ∈ exSaveMismatch.1.2.2 ∧
    (cleanup_unnecessary_files exFsTemp [["tmp", "t0"]]).1.isFile ["tmp", "t0"] = false :=
  ⟨digest_mismatch_always_rolls_back.1 ["m"] exFsTemp [["tmp", "t0"]] ["tmp", "t0"]
      exDigest (sha256hex exBytes2) (by decide) (by decide),
   digest_mismatch_always_rolls_back.2.1 ["m"]
      [(["tmp", "t0"], exDigest, sha256hex exBytes2)] exFsTemp [["tmp", "t0"]]
      exSaveMismatch.1 (.digestMismatch exDigest) (by decide),
   digest_mismatch_always_rolls_back.2.2 exFsTemp [["tmp", "t0"]] ["tmp", "t0"]
      (by decide) (by decide)⟩

set_option maxRecDepth 1000000 in
set_option maxHeartbeats 2000000 in
/-- Claim C7 (code bug): the Ollama session's private blob fetcher reads
the whole body and never consults the cancellation coordinator, so a
session run with the interrupted flag raised at every checkpoint still
succeeds and commits its blobs — while the module-level fetcher
`utils::download_model_blob`, which the spec describes and which nothing
in the session calls, aborts immediately with a user-cancelled error under
the same observations. -/
theorem ollama_session_ignores_interrupt_flag :
    exRunInterrupted.2 = Outcome.ok ∧
      Ev.commitBlob exDigest ∈ exRunInterrupted.1.2.2 ∧
      (∀ k, exObsInterrupted.interrupted k = true) ∧
      download_model_blob exObsInterrupted ["tmp", "t9"] true [exBytes] exFs [] =
        ((exFs, [], []), .error .userCancelled) :=
  ⟨by decide, by decide, fun _ => rfl, by decide⟩

theorem saveManifestWrite_err (data : Bytes) (md : FsPath) (tag : String) (wok : Bool)
    (fs1 : Fs) (s1 : RollbackSet) (tr1 : List Ev)
    (st : Fs × RollbackSet × List Ev) (e : DlError)
    (h : saveManifestWrite data md tag wok fs1 s1 tr1 = (st, .error e)) :
    wok = false ∧ st = (fs1, s1, tr1) ∧ e = .ioError := by
  unfold saveManifestWrite at h
  split at h
  · next hw =>
    cases h
    exact ⟨by simpa using hw, rfl, rfl⟩
  · cases h

theorem saveManifestWrite_ok (data : Bytes) (md : FsPath) (tag : String) (wok : Bool)
    (fs1 : Fs) (s1 : RollbackSet) (tr1 : List Ev)
    (st : Fs × RollbackSet × List Ev) (tgt : FsPath)
    (h : saveManifestWrite data md tag wok fs1 s1 tr1 = (st, .ok tgt)) :
    wok = true ∧ st.2.2 = tr1 ++ [Ev.writeManifestFile (md ++ [tag]),
      Ev.recordPath (md ++ [tag])] ∧ tgt = md ++ [tag] := by
  unfold saveManifestWrite at h
  split at h
  · cases h
  · next hw =>
    cases h
    exact ⟨by simpa using hw, rfl, rfl⟩

theorem save_manifest_err (data : Bytes) (md : FsPath) (tag : String) (wok : Bool)
    (fs : Fs) (s : RollbackSet) (st : Fs × RollbackSet × List Ev) (e : DlError)
    (h : save_manifest data md tag wok fs s = (st, .error e)) :
    wok = false ∧ e = .ioError ∧
      ∀ ev ∈ st.2.2, (∃ p, ev = Ev.mkdir p) ∨ (∃ p, ev = Ev.recordPath p) := by
  unfold save_manifest at h
  split at h
  · obtain ⟨hw, hst, he⟩ := saveManifestWrite_err _ _ _ _ _ _ _ _ _ h
    subst hst
    exact ⟨hw, he, by simp⟩
  · obtain ⟨hw, hst, he⟩ := saveManifestWrite_err _ _ _ _ _ _ _ _ _ h
    subst hst
    refine ⟨hw, he, ?_⟩
    intro ev hev
    rcases List.mem_append.mp hev with hm | hm
    · exact Or.inl (by obtain ⟨p, _, rfl⟩ := List.mem_map.mp hm; exact ⟨p, rfl⟩)
    · simp at hm; exact Or.inr ⟨md, by simp [hm]⟩

theorem save_manifest_ok (data : Bytes) (md : FsPath) (tag : String) (wok : Bool)
    (fs : Fs) (s : RollbackSet) (st : Fs × RollbackSet × List Ev) (tgt : FsPath)
    (h : save_manifest data md tag wok fs s = (st, .ok tgt)) :
    wok = true ∧ ∃ pre : List Ev,
      (∀ ev ∈ pre, (∃ p, ev = Ev.mkdir p) ∨ (∃ p, ev = Ev.recordPath p)) ∧
      st.2.2 = pre ++ [Ev.writeManifestFile (md ++ [tag]), Ev.recordPath (md ++ [tag])] := by
  unfold save_manifest at h
  split at h
  · obtain ⟨hw, hst, _⟩ := saveManifestWrite_ok _ _ _ _ _ _ _ _ _ h
    exact ⟨hw, [], by simp, by simpa using hst⟩
  · obtain ⟨hw, hst, _⟩ := saveManifestWrite_ok _ _ _ _ _ _ _ _ _ h
    refine ⟨hw, _, ?_, hst⟩
    intro ev hev
    rcases List.mem_append.mp hev with hm | hm
    · exact Or.inl (by obtain ⟨p, _, rfl⟩ := List.mem_map.mp hm; exact ⟨p, rfl⟩)
    · simp at hm; exact Or.inr ⟨md, by simp [hm]⟩

set_option maxRecDepth 1000000 in
set_option maxHeartbeats 2000000 in
/-- Claim C8 (counterexample): with the remove-on-error policy enabled and
the blob GET failing, the session surfaces the HTTP error but performs no
rollback — the trace contains no rollback event and the staged temp path
is still recorded in the returned set, refuting that rollback happens if
and only if the policy is enabled. -/
theorem http_failure_no_rollback_despite_policy_counterexample :
    exRunHttpFail.2 = Outcome.err DlError.httpError ∧
      Ev.rollbackLedger ∉ exRunHttpFail.1.2.2 ∧
      exRunHttpFail.1.2.1 ≠ [] := by decide

/-- Claim C8 (amended): an HTTP failure is surfaced to the caller, but the
session triggers no rollback for manifest-fetch or blob-fetch failures
regardless of the remove-on-error policy; the policy-conditional rollback
exists only on the manifest-save failure branch. -/
theorem network_error_rollback_only_on_manifest_save (mp : FsPath)
    (host model tag : String) (env : SessionEnv) (policy : Bool) (fs : Fs) :
    (env.manifestFetch = none →
      download_model mp host model tag env policy fs =
        ((fs, [], [Ev.httpGet false]), .err .httpError)) ∧
    (∀ (manifest : ImageManifest) (raw : Bytes) (st : Fs × RollbackSet × List Ev)
      (e : DlError),
      env.manifestFetch = some (manifest, raw) →
      downloadPhase env (manifestDigests manifest) 0 fs [] = (st, .error e) →
      download_model mp host model tag env policy fs = ((st.1, st.2.1, st.2.2), .err e) ∧
        Ev.rollbackLedger ∉ st.2.2) ∧
    (∀ (manifest : ImageManifest) (raw : Bytes) (st1 : Fs × RollbackSet × List Ev)
      (files : List (FsPath × String × String)) (st2 : Fs × RollbackSet × List Ev),
      env.manifestFetch = some (manifest, raw) →
      downloadPhase env (manifestDigests manifest) 0 fs [] = (st1, .ok files) →
      savePhase mp files st1.1 st1.2.1 = (st2, some (.ok ())) →
      env.manifestWriteOk = false →
      (download_model mp host model tag env policy fs).2 = .err .ioError ∧
        (Ev.rollbackLedger ∈ (download_model mp host model tag env policy fs).1.2.2 ↔
          policy = true)) := by
  refine ⟨?_, ?_, ?_⟩
  · intro hm
    simp [download_model, hm]
  · intro manifest raw st e hm hDP
    obtain ⟨fs1, s1, tr1⟩ := st
    have hcls := downloadPhase_trace env (manifestDigests manifest) 0 fs []
    rw [hDP] at hcls
    obtain ⟨hrb, _, _, _⟩ := fetch_classified_not_mem tr1 hcls
    constructor
    · simp [download_model, hm, hDP]
    · exact hrb
  · intro manifest raw st1 files st2 hm hDP hSP hW
    obtain ⟨fs1, s1, tr1⟩ := st1
    obtain ⟨fs2, s2, tr2⟩ := st2
    have hcls1 := downloadPhase_trace env (manifestDigests manifest) 0 fs []
    rw [hDP] at hcls1
    obtain ⟨hrb1, _, _, _⟩ := fetch_classified_not_mem tr1 hcls1
    simp only [] at hSP
    have htr2 := savePhase_ok_trace mp files fs1 s1 (fs2, s2, tr2) hSP
    simp only [] at htr2
    rcases hSM : save_manifest raw (mp ++ ["manifests", host, "library", model]) tag
        env.manifestWriteOk fs2 s2 with ⟨⟨fs3, s3, tr3⟩, r3⟩
    cases r3 with
    | ok tgt =>
      obtain ⟨hw, _⟩ := save_manifest_ok _ _ _ _ _ _ _ _ hSM
      rw [hW] at hw
      cases hw
    | error e3 =>
      obtain ⟨_, he3, hcls3⟩ := save_manifest_err _ _ _ _ _ _ _ _ hSM
      simp only [] at hcls3
      subst he3
      obtain ⟨hrb3, _, _, _⟩ := creation_classified_not_mem tr3 hcls3
      have hrb2 : Ev.rollbackLedger ∉ tr2 := by
        rw [htr2]
        simp
      constructor
      · simp only [download_model, hm, hDP, hSP, hSM]
        cases policy <;> simp
      · simp only [download_model, hm, hDP, hSP, hSM]
        cases policy with
        | true => simp
        | false =>
          simp only [Bool.false_eq_true, if_false]
          constructor
          · intro hmem
            rcases List.mem_append.mp hmem with hmem2 | hmem2
            · rcases List.mem_append.mp hmem2 with hmem3 | hmem3
              · exact absurd hmem3 hrb1
              · exact absurd hmem3 hrb2
            · exact absurd hmem2 hrb3
          · intro hfalse
            cases hfalse

/-- Claim C6: the rollback set is cleared — without deleting the recorded
paths, so no rollback event appears — exactly when the whole session
succeeds: on success the returned set is empty and the trace ends in the
clear event, and a clear event in the trace implies the session returned
success. -/
theorem ledger_cleared_iff_session_success (mp : FsPath) (host model tag : String)
    (env : SessionEnv) (policy : Bool) (fs fs' : Fs) (s' : RollbackSet) (tr : List Ev)
    (out : Outcome)
    (h : download_model mp host model tag env policy fs = ((fs', s', tr), out)) :
    (out = .ok → s' = [] ∧ Ev.clearLedger ∈ tr ∧ Ev.rollbackLedger ∉ tr) ∧
      (Ev.clearLedger ∈ tr → out = .ok) := by
  unfold download_model at h
  split at h
  · cases h
    exact ⟨fun hok => by simp at hok, fun hcl => by simp at hcl⟩
  · rename_i manifest raw hm
    split at h
    · rename_i fs1 s1 tr1 e hDP
      cases h
      have hcls := downloadPhase_trace env (manifestDigests manifest) 0 fs []
      rw [hDP] at hcls
      obtain ⟨_, hcl1, _, _⟩ := fetch_classified_not_mem tr hcls
      exact ⟨fun hok => by simp at hok, fun hcl => absurd hcl hcl1⟩
    · rename_i fs1 s1 tr1 files hDP
      have hcls := downloadPhase_trace env (manifestDigests manifest) 0 fs []
      rw [hDP] at hcls
      obtain ⟨hrb1, hcl1, _, _⟩ := fetch_classified_not_mem tr1 hcls
      split at h
      · rename_i fs2 s2 tr2 hSP
        cases h
        obtain ⟨ds, hds⟩ := savePhase_crashed_trace mp files fs1 s1 _ hSP
        simp only [] at hds
        refine ⟨fun hok => by simp at hok, fun hcl => ?_⟩
        rcases List.mem_append.mp hcl with hm2 | hm2
        · exact absurd hm2 hcl1
        · rw [hds] at hm2
          simp at hm2
      · rename_i fs2 s2 tr2 e hSP
        cases h
        obtain ⟨ds, hds⟩ := savePhase_err_trace mp files fs1 s1 _ e hSP
        simp only [] at hds
        refine ⟨fun hok => by simp at hok, fun hcl => ?_⟩
        rcases List.mem_append.mp hcl with hm2 | hm2
        · exact absurd hm2 hcl1
        · rw [hds] at hm2
          simp at hm2
      · rename_i fs2 s2 tr2 u hSP
        have htr2 := savePhase_ok_trace mp files fs1 s1 _ hSP
        simp only [] at htr2
        have hcl2 : Ev.clearLedger ∉ tr2 := by
          rw [htr2]
          simp
        have hrb2 : Ev.rollbackLedger ∉ tr2 := by
          rw [htr2]
          simp
        split at h
        · rename_i fs3 s3 tr3 e hSM
          obtain ⟨_, _, hcls3⟩ := save_manifest_err _ _ _ _ _ _ _ _ hSM
          simp only [] at hcls3
          obtain ⟨hrb3, hcl3, _, _⟩ := creation_classified_not_mem tr3 hcls3
          split at h
          · cases h
            refine ⟨fun hok => by simp at hok, fun hcl => ?_⟩
            rcases List.mem_append.mp hcl with hm2 | hm2
            · rcases List.mem_append.mp hm2 with hm3 | hm3
              · rcases List.mem_append.mp hm3 with hm4 | hm4
                · exact absurd hm4 hcl1
                · exact absurd hm4 hcl2
              · exact absurd hm3 hcl3
            · simp at hm2
          · cases h
            refine ⟨fun hok => by simp at hok, fun hcl => ?_⟩
            rcases List.mem_append.mp hcl with hm2 | hm2
            · rcases List.mem_append.mp hm2 with hm3 | hm3
              · exact absurd hm3 hcl1
              · exact absurd hm3 hcl2
            · exact absurd hm2 hcl3
        · rename_i fs3 s3 tr3 tgt hSM
          cases h
          obtain ⟨_, pre, hclsPre, htr3⟩ := save_manifest_ok _ _ _ _ _ _ _ _ hSM
          simp only [] at htr3
          obtain ⟨hrbPre, _, _, _⟩ := creation_classified_not_mem pre hclsPre
          refine ⟨fun _ => ⟨rfl, by simp, ?_⟩, fun _ => rfl⟩
          intro hmem
          rcases List.mem_append.mp hmem with hm2 | hm2
          · rcases List.mem_append.mp hm2 with hm3 | hm3
            · rcases List.mem_append.mp hm3 with hm4 | hm4
              · exact absurd hm4 hrb1
              · exact absurd hm4 hrb2
            · rw [htr3] at hm3
              rcases List.mem_append.mp hm3 with hm4 | hm4
              · exact absurd hm4 hrbPre
              · simp at hm4
          · simp at hm2

theorem noWrite_append (l1 l2 : List Ev)
    (h1 : ∀ p, Ev.writeManifestFile p ∉ l1) (h2 : ∀ p, Ev.writeManifestFile p ∉ l2) :
    ∀ p, Ev.writeManifestFile p ∉ l1 ++ l2 := by
  intro p hp
  rcases List.mem_append.mp hp with hm | hm
  · exact absurd hm (h1 p)
  · exact absurd hm (h2 p)

theorem noWrite_map_commit (ds : List String) :
    ∀ p, Ev.writeManifestFile p ∉ ds.map Ev.commitBlob := by
  intro p hp
  simp at hp

/-- Claim C3: in every session run over a fetched manifest, every blob
commit in the trace happens before the manifest write; if the manifest
file was written at all, then the committed digests are exactly the
manifest's declared digests — config first, then the layers in their
declared order — so a manifest referencing an uncommitted blob never
becomes visible; and a successful session commits exactly the declared
digests in that order. -/
theorem download_model_commits_in_order_before_manifest (mp : FsPath)
    (host model tag : String) (env : SessionEnv) (policy : Bool) (fs : Fs)
    (manifest : ImageManifest) (raw : Bytes) (fs' : Fs) (s' : RollbackSet)
    (tr : List Ev) (out : Outcome)
    (hm : env.manifestFetch = some (manifest, raw))
    (h : download_model mp host model tag env policy fs = ((fs', s', tr), out)) :
    commitsBeforeManifestWrite tr = true ∧
      (∀ p, Ev.writeManifestFile p ∈ tr → commitsOf tr = manifestDigests manifest) ∧
      (out = .ok → commitsOf tr = manifestDigests manifest) := by
  unfold download_model at h
  split at h
  · rename_i hnone
    rw [hm] at hnone
    cases hnone
  · rename_i manifest2 raw2 hm2
    rw [hm] at hm2
    injection hm2 with hm3
    injection hm3 with hm4 hm5
    subst hm4
    subst hm5
    split at h
    · rename_i fs1 s1 tr1 e hDP
      cases h
      have hcls := downloadPhase_trace env (manifestDigests manifest) 0 fs []
      rw [hDP] at hcls
      obtain ⟨_, _, hw1, _⟩ := fetch_classified_not_mem tr hcls
      exact ⟨commitsBeforeManifestWrite_noWrite tr hw1,
        fun p hp => absurd hp (hw1 p), fun hok => by simp at hok⟩
    · rename_i fs1 s1 tr1 files hDP
      have hcls := downloadPhase_trace env (manifestDigests manifest) 0 fs []
      rw [hDP] at hcls
      obtain ⟨_, _, hw1, hco1⟩ := fetch_classified_not_mem tr1 hcls
      split at h
      · rename_i fs2 s2 tr2 hSP
        cases h
        obtain ⟨ds, hds⟩ := savePhase_crashed_trace mp files fs1 s1 _ hSP
        simp only [] at hds
        have hw2 : ∀ p, Ev.writeManifestFile p ∉ tr2 := by
          rw [hds]; exact noWrite_map_commit ds
        have hw12 := noWrite_append tr1 tr2 hw1 hw2
        exact ⟨commitsBeforeManifestWrite_noWrite _ hw12,
          fun p hp => absurd hp (hw12 p), fun hok => by simp at hok⟩
      · rename_i fs2 s2 tr2 e hSP
        cases h
        obtain ⟨ds, hds⟩ := savePhase_err_trace mp files fs1 s1 _ e hSP
        simp only [] at hds
        have hw2 : ∀ p, Ev.writeManifestFile p ∉ tr2 := by
          rw [hds]
          intro p hp
          rcases List.mem_append.mp hp with hm6 | hm6
          · exact absurd hm6 (noWrite_map_commit ds p)
          · simp at hm6
        have hw12 := noWrite_append tr1 tr2 hw1 hw2
        exact ⟨commitsBeforeManifestWrite_noWrite _ hw12,
          fun p hp => absurd hp (hw12 p), fun hok => by simp at hok⟩
      · rename_i fs2 s2 tr2 u hSP
        have htr2 := savePhase_ok_trace mp files fs1 s1 _ hSP
        simp only [] at htr2
        have hw2 : ∀ p, Ev.writeManifestFile p ∉ tr2 := by
          rw [htr2]
          intro p hp
          simp at hp
        split at h
        · rename_i fs3 s3 tr3 e hSM
          obtain ⟨_, _, hcls3⟩ := save_manifest_err _ _ _ _ _ _ _ _ hSM
          simp only [] at hcls3
          obtain ⟨_, _, hw3, _⟩ := creation_classified_not_mem tr3 hcls3
          split at h
          · cases h
            have hw123 := noWrite_append (tr1 ++ tr2) tr3 (noWrite_append tr1 tr2 hw1 hw2) hw3
            have hwAll : ∀ p, Ev.writeManifestFile p ∉ tr1 ++ tr2 ++ tr3 ++ [Ev.rollbackLedger] := by
              refine noWrite_append _ _ hw123 ?_
              intro p hp
              simp at hp
            exact ⟨commitsBeforeManifestWrite_noWrite _ hwAll,
              fun p hp => absurd hp (hwAll p), fun hok => by simp at hok⟩
          · cases h
            have hwAll : ∀ p, Ev.writeManifestFile p ∉ tr1 ++ tr2 ++ tr3 :=
              noWrite_append (tr1 ++ tr2) tr3 (noWrite_append tr1 tr2 hw1 hw2) hw3
            exact ⟨commitsBeforeManifestWrite_noWrite _ hwAll,
              fun p hp => absurd hp (hwAll p), fun hok => by simp at hok⟩
        · rename_i fs3 s3 tr3 tgt hSM
          cases h
          obtain ⟨_, pre, hclsPre, htr3⟩ := save_manifest_ok _ _ _ _ _ _ _ _ hSM
          simp only [] at htr3
          obtain ⟨_, _, hwPre, hcoPre⟩ := creation_classified_not_mem pre hclsPre
          have hnames := downloadPhase_ok_names env (manifestDigests manifest) 0 fs [] _ _ hDP
          have hcommits : commitsOf (tr1 ++ tr2 ++ tr3 ++ [Ev.clearLedger]) =
              manifestDigests manifest := by
            rw [htr2, htr3]
            simp only [commitsOf_append, hco1, commitsOf_commit_map, hnames, hcoPre]
            simp [commitsOf]
          refine ⟨?_, fun p hp => hcommits, fun hok => hcommits⟩
          simp only [List.append_assoc]
          rw [commitsBeforeManifestWrite_append_noWrite tr1 _ hw1,
            commitsBeforeManifestWrite_append_noWrite tr2 _ hw2, htr3,
            List.append_assoc pre,
            commitsBeforeManifestWrite_append_noWrite pre _ hwPre]
          simp [commitsBeforeManifestWrite, hasCommit]

set_option maxRecDepth 1000000 in
set_option maxHeartbeats 4000000 in
/-- Witness for C3 on the successful two-blob example session. -/
theorem download_model_commits_witness :
    commitsBeforeManifestWrite exRun.1.2.2 = true ∧
      (∀ p, Ev.writeManifestFile p ∈ exRun.1.2.2 →
        commitsOf exRun.1.2.2 = manifestDigests exManifest) ∧
      (exRun.2 = .ok → commitsOf exRun.1.2.2 = manifestDigests exManifest) :=
  download_model_commits_in_order_before_manifest ["m"] "registry.ollama.ai" "llama"
    "latest" exEnv false exFs exManifest [123] exRun.1.1 exRun.1.2.1 exRun.1.2.2
    exRun.2 rfl rfl

set_option maxRecDepth 1000000 in
set_option maxHeartbeats 4000000 in
/-- Witness for C6 on the successful two-blob example session. -/
theorem ledger_cleared_iff_success_witness :
    (exRun.2 = .ok → exRun.1.2.1 = [] ∧ Ev.clearLedger ∈ exRun.1.2.2 ∧
        Ev.rollbackLedger ∉ exRun.1.2.2) ∧
      (Ev.clearLedger ∈ exRun.1.2.2 → exRun.2 = .ok) :=
  ledger_cleared_iff_session_success ["m"] "registry.ollama.ai" "llama" "latest" exEnv
    false exFs exRun.1.1 exRun.1.2.1 exRun.1.2.2 exRun.2 rfl

set_option maxRecDepth 1000000 in
set_option maxHeartbeats 4000000 in
/-- Witness for the amended C8 theorem: a failed manifest GET, a failed
blob GET under the enabled policy, and a failed manifest write under the
enabled policy. -/
theorem network_error_rollback_witness :
    download_model ["m"] "registry.ollama.ai" "llama" "latest" exEnvNoManifest true exFs =
        ((exFs, [], [Ev.httpGet false]), .err .httpError) ∧
      (download_model ["m"] "registry.ollama.ai" "llama" "latest" exEnvHttpFail true exFs =
          ((exDPHttpFail.1.1, exDPHttpFail.1.2.1, exDPHttpFail.1.2.2), .err .httpError) ∧
        Ev.rollbackLedger ∉ exDPHttpFail.1.2.2) ∧
      ((download_model ["m"] "registry.ollama.ai" "llama" "latest" exEnvNoWrite true
          exFs).2 = .err .ioError ∧
        (Ev.rollbackLedger ∈ (download_model ["m"] "registry.ollama.ai" "llama" "latest"
            exEnvNoWrite true exFs).1.2.2 ↔ (true : Bool) = true)) :=
  ⟨(network_error_rollback_only_on_manifest_save ["m"] "registry.ollama.ai" "llama"
      "latest" exEnvNoManifest true exFs).1 rfl,
   (network_error_rollback_only_on_manifest_save ["m"] "registry.ollama.ai" "llama"
      "latest" exEnvHttpFail true exFs).2.1 exManifestNoLayers [123] exDPHttpFail.1
      .httpError rfl (by decide),
   (network_error_rollback_only_on_manifest_save ["m"] "registry.ollama.ai" "llama"
      "latest" exEnvNoWrite true exFs).2.2 exManifestNoLayers [123] exDPNoWrite.1
      [(["tmp", "t0"], exDigest, sha256hex exBytes)] exSPNoWrite.1 rfl (by decide)
      (by decide) rfl⟩
